import Mathlib

/-! Moment-arm test driver of OpenSim (`OpenSim/Simulation/Test/testMomentArms.cpp`)

A shallow embedding of the functions of the moment-arm test driver and of
`OpenSim/Auxiliary/auxiliaryTestFunctions.h`, followed by theorems about them.

Numbers. A C++ `double` is modelled by `Double`: a finite value is carried exactly
as a rational (rounding is not modelled), and the results IEEE-754 gives where no
finite value exists (a division by zero, `∞ - ∞`, ...) are the two infinities and
NaN. Zero is unsigned; it stands for `+0`, which is what `x - x` yields in the
default rounding mode.

Collaborators. The multibody engine, the coordinate accessors and the path are
not part of the translated sources; they enter as the function fields of
`Coordinate`, `GeometryPath` and `Model`.
-/

namespace OpenSim

/-! ## Doubles -/

/-- Value of a C++ `double`: a finite number, `+∞` (`inf false`), `-∞` (`inf true`) or NaN. -/
inductive Double where
  | finite (x : ℚ)
  | inf (negative : Bool)
  | nan
  deriving DecidableEq

namespace Double

/-- Unary minus. -/
def neg : Double → Double
  | finite x => finite (-x)
  | inf b => inf (!b)
  | nan => nan

/-- Addition: `∞ + (-∞)` is NaN, NaN is absorbing. -/
def add : Double → Double → Double
  | finite x, finite y => finite (x + y)
  | finite _, inf b => inf b
  | inf a, finite _ => inf a
  | inf a, inf b => if a = b then inf a else nan
  | nan, _ => nan
  | _, nan => nan

/-- Subtraction, `a - b = a + (-b)`. -/
def sub (a b : Double) : Double := add a (neg b)

/-- Multiplication: `0 * ∞` is NaN. -/
def mul : Double → Double → Double
  | finite x, finite y => finite (x * y)
  | finite x, inf b => if x = 0 then nan else inf (xor (decide (x < 0)) b)
  | inf a, finite y => if y = 0 then nan else inf (xor a (decide (y < 0)))
  | inf a, inf b => inf (xor a b)
  | nan, _ => nan
  | _, nan => nan

/-- Division: a non-zero finite value over zero is an infinity with the sign of the
numerator, `0 / 0` and `∞ / ∞` are NaN, a finite value over an infinity is zero. -/
def div : Double → Double → Double
  | finite x, finite y =>
      if y = 0 then (if x = 0 then nan else inf (decide (x < 0))) else finite (x / y)
  | finite _, inf _ => finite 0
  | inf a, finite y => inf (xor a (decide (y < 0)))
  | inf _, inf _ => nan
  | nan, _ => nan
  | _, nan => nan

/-- The comparison `a < b` of C++: false as soon as one side is NaN. -/
def lt : Double → Double → Bool
  | finite x, finite y => decide (x < y)
  | finite _, inf b => !b
  | inf a, finite _ => a
  | inf a, inf b => a && !b
  | nan, _ => false
  | _, nan => false

/-- Absolute value, `std::abs`. -/
def abs : Double → Double
  | finite x => finite |x|
  | inf _ => inf false
  | nan => nan

/-- Maximum as `std::max(a, b)` computes it: `(a < b) ? b : a`. -/
def max (a b : Double) : Double := if lt a b then b else a

/-- A double that is neither an infinity nor NaN. -/
def isFinite : Double → Bool
  | finite _ => true
  | _ => false

instance : Neg Double := ⟨neg⟩
instance : Add Double := ⟨add⟩
instance : Sub Double := ⟨sub⟩
instance : Mul Double := ⟨mul⟩
instance : Div Double := ⟨div⟩

end Double

/-- Vectors of doubles (`SimTK::Vector`). -/
abbrev Vector := List Double

/-! ## Collaborators -/

/-- Realization stages of the multibody system that the driver names. -/
inductive Stage where
  | Instance
  | Position
  | Velocity
  | Dynamics
  | Acceleration
  deriving DecidableEq

/-- Motion type tag of a coordinate. -/
inductive MotionType where
  | Rotational
  | Translational
  | Coupled
  deriving DecidableEq

/-- A pose (`SimTK::State`): generalized coordinates, generalized speeds and the
clamp and lock flags of the coordinates. Copying a state is copying this value. -/
structure State where
  q : List Double
  u : List Double
  clamped : List Bool
  locked : List Bool
  deriving DecidableEq

/-- A coordinate with its accessors. The accessors belong to the engine; what
`setValue` stores may differ from what was requested (clamping, locking,
assembly of the constraints). -/
structure Coordinate where
  getName : String
  getMotionType : MotionType
  getJointName : String
  getBodyIndex : Nat
  getMobilityIndex : Nat
  getValue : State → Double
  setValue : State → Double → Bool → State
  setClamped : State → Bool → State
  setLocked : State → Bool → State

/-- A path: its length at a pose. -/
structure GeometryPath where
  getLength : State → Double

/-- The parts of a model and of its multibody system that the driver uses:
the coordinate set, the number of speeds, `realize`, the velocity-level
`project`, and the index of the first speed of a mobilized body. -/
structure Model where
  getCoordinateSet : List Coordinate
  getNumSpeeds : Nat
  realize : State → Stage → State
  project : State → State
  getFirstUIndex : Nat → Nat

/-! ## Common parameters -/

/-- The global `integ_accuracy = 1.0e-3`. -/
def integ_accuracy : Double := Double.finite (1 / 1000)

/-! ## `computeMomentArmFromDefinition` -/

/-- The finite-difference estimate with the step as a parameter; the source
fixes the step to `integ_accuracy`. -/
def momentArmFromDefinitionWithStep (dtheta : Double) (osimModel : Model) (s : State)
    (path : GeometryPath) (coord : Coordinate) : Double :=
  let s_ma := s
  let s_ma := coord.setClamped s_ma false
  let s_ma := coord.setLocked s_ma false
  let theta := coord.getValue s
  -- Compute length 1
  let s_ma := coord.setValue s_ma (theta - dtheta) true
  let theta1 := coord.getValue s_ma
  let s_ma := osimModel.realize s_ma Stage.Position
  let len1 := path.getLength s_ma
  -- Compute length 2
  let s_ma := coord.setValue s_ma (theta + dtheta) true
  let theta2 := coord.getValue s_ma
  let s_ma := osimModel.realize s_ma Stage.Position
  let len2 := path.getLength s_ma
  (len1 - len2) / (theta2 - theta1)

/-- Translation of `computeMomentArmFromDefinition`: `dtheta = integ_accuracy`. -/
def computeMomentArmFromDefinition (osimModel : Model) (s : State)
    (path : GeometryPath) (coord : Coordinate) : Double :=
  momentArmFromDefinitionWithStep integ_accuracy osimModel s path coord

/-! ## `computeGenForceScaling` -/

/-- Element access `v[i]` of a `SimTK::Vector`. Reading outside the vector is not
defined by the library; the model yields NaN there. -/
def elt (v : Vector) (i : Nat) : Double := v.getD i Double.nan

/-- Division of a vector by a scalar, `v / d`, elementwise. -/
def Vector.divScalar (v : Vector) (d : Double) : Vector := v.map (fun x => x / d)

/-- Search of `OpenSim::Array::findIndex`, counting from position `i`. -/
def findIndexFrom (aValue : String) : List String → Nat → Int
  | [], _ => -1
  | x :: xs, i => if x = aValue then (i : Int) else findIndexFrom aValue xs (i + 1)

/-- The accessor `findIndex` of `OpenSim::Array`: position of the first element
equal to `aValue`, or `-1`. -/
def findIndex (arr : List String) (aValue : String) : Int := findIndexFrom aValue arr 0

/-- Speed index of a coordinate as the source computes it:
`mobod.getFirstUIndex(s) + ac.getMobilityIndex()`. -/
def Coordinate.speedIndex (osimModel : Model) (ac : Coordinate) : Nat :=
  osimModel.getFirstUIndex ac.getBodyIndex + ac.getMobilityIndex

/-- Modelled from the spec: the accessor `setSpeedValue` of a coordinate, which is
not among the translated sources, writes the coordinate's own generalized speed,
the entry of `u` at the coordinate's speed index. -/
def Coordinate.setSpeedValue (osimModel : Model) (coord : Coordinate) (s : State)
    (aValue : Double) : State :=
  { s with u := s.u.set (coord.speedIndex osimModel) aValue }

/-- Modelled from the spec: the accessor `getSpeedValue` of a coordinate, which is
not among the translated sources, reads the coordinate's own generalized speed. -/
def Coordinate.getSpeedValue (osimModel : Model) (coord : Coordinate) (s : State) : Double :=
  elt s.u (coord.speedIndex osimModel)

/-- The assignment `s.updU() = 0`: every generalized speed becomes zero. -/
def State.zeroU (s : State) : State := { s with u := s.u.map (fun _ => Double.finite 0) }

/-- The private pose of `computeGenForceScaling` at the moment it is handed to
`project` (lines 95-111). -/
def genForceScalingPose (osimModel : Model) (s : State) (coord : Coordinate) : State :=
  let s_ma := s
  let s_ma := osimModel.realize s_ma Stage.Instance
  let s_ma := s_ma.zeroU
  let s_ma := coord.setSpeedValue osimModel s_ma (Double.finite 1)
  osimModel.realize s_ma Stage.Velocity

/-- The speed vector `U` read back after the projection (lines 113-114). -/
def genForceScalingSpeeds (osimModel : Model) (s : State) (coord : Coordinate) : Vector :=
  (osimModel.project (genForceScalingPose osimModel s coord)).u

/-- The coupling vector `C = s_ma.getU() / coord.getSpeedValue(s_ma)` (line 118). -/
def genForceScalingCoupling (osimModel : Model) (s : State) (coord : Coordinate) : Vector :=
  let s_ma := osimModel.project (genForceScalingPose osimModel s coord)
  Vector.divScalar s_ma.u (coord.getSpeedValue osimModel s_ma)

/-- The test of lines 130-134: the coordinate `ac` is the coordinate of interest or
one of the coupled ones, it is not translational and its joint is not `tib_pat_r`. -/
def scalesGenForce (coord : Coordinate) (coupledCoords : List String) (ac : Coordinate) : Bool :=
  let found := (ac.getName == coord.getName) || decide (findIndex coupledCoords ac.getName > -1)
  found && (ac.getMotionType != MotionType.Translational) && (ac.getJointName != "tib_pat_r")

/-- One pass of the loop of lines 127-146. The column of `H` and `thetaScale` are
computed by the source but never used. -/
def genForceScalingStep (osimModel : Model) (coord : Coordinate) (coupledCoords : List String)
    (C : Vector) (W : Vector) (ac : Coordinate) : Vector :=
  if scalesGenForce coord coupledCoords ac then
    let Ci := elt C (ac.speedIndex osimModel)
    W.set (ac.speedIndex osimModel) Ci
  else W

/-- Translation of `computeGenForceScaling`. -/
def computeGenForceScaling (osimModel : Model) (s : State) (coord : Coordinate)
    (coupledCoords : List String) : Vector :=
  let C := genForceScalingCoupling osimModel s coord
  let W : Vector := List.replicate osimModel.getNumSpeeds (Double.finite 0)
  osimModel.getCoordinateSet.foldl (genForceScalingStep osimModel coord coupledCoords C) W

/-! ## The dynamic-consistency check of the driver -/

/-- The exceptions of the sources: the `std::exception` thrown by the macros `ASSERT`
and `ASSERT_EQUAL` of the driver, and the `OpenSim::Exception` with its message,
file and line. -/
inductive Exception where
  | exception
  | opensim (message file : String) (line : Int)
  deriving DecidableEq

/-- The macro `ASSERT_EQUAL(expected, found, tolerance)` of the driver. -/
def ASSERT_EQUAL (expected found tolerance : Double) : Except Exception Unit :=
  let tol := Double.max tolerance (Double.abs (expected * tolerance))
  if Double.lt found (expected - tol) || Double.lt (expected + tol) found then
    throw Exception.exception
  else pure ()

/-- Sum of two vectors, elementwise. -/
def Vector.add : Vector → Vector → Vector
  | x :: xs, y :: ys => (x + y) :: Vector.add xs ys
  | _, _ => []

/-- The product `~W * f` of a row vector and a vector. -/
def dot : Vector → Vector → Double
  | w :: ws, f :: fs => w * f + dot ws fs
  | _, _ => Double.finite 0

/-- Line 286: `equivalentMuscleTorque = ~W*equivalentGenForce`. -/
def equivalentMuscleTorque (W equivalentGenForce : Vector) : Double :=
  dot W equivalentGenForce

/-- Line 287: `equivalentIvdMuscleTorque = ~W*(ivdGenForces+constraintMobilityForces)`. -/
def equivalentIvdMuscleTorque (W ivdGenForces constraintMobilityForces : Vector) : Double :=
  dot W (Vector.add ivdGenForces constraintMobilityForces)

/-- The two assertions inside the `try` block of lines 293-298. -/
def dynamicConsistencyAsserts (equivalentIvdMuscleTorque equivalentMuscleTorque maForce : Double) :
    Except Exception Unit := do
  ASSERT_EQUAL equivalentIvdMuscleTorque equivalentMuscleTorque integ_accuracy
  ASSERT_EQUAL equivalentIvdMuscleTorque maForce integ_accuracy

/-- Lines 293-301: the `try` block and its `catch(...)`, which sets
`passesDynamicConsistency = false`; the value is the flag after the block. -/
def dynamicConsistencyVerdict (passesDynamicConsistency : Bool)
    (equivalentIvdMuscleTorque equivalentMuscleTorque maForce : Double) : Bool :=
  match dynamicConsistencyAsserts equivalentIvdMuscleTorque equivalentMuscleTorque maForce with
  | Except.ok _ => passesDynamicConsistency
  | Except.error _ => false

/-- Order of the realization stages. -/
def Stage.rank : Stage → Nat
  | Stage.Instance => 0
  | Stage.Position => 1
  | Stage.Velocity => 2
  | Stage.Dynamics => 3
  | Stage.Acceleration => 4

/-- The operators of the state and of the matter subsystem that the dynamic check
calls, each as a function of the pose it is called on: the stage of the pose,
`calcTreeEquivalentMobilityForces` on the applied rigid-body forces,
`calcConstraintForcesFromMultipliers` on the multipliers of the pose (its
mobility forces), and `calcResidualForceIgnoringConstraints` with zero applied
forces and the accelerations of the pose. -/
structure MatterSubsystem where
  getSystemStage : State → Stage
  calcTreeEquivalentMobilityForces : State → Vector
  calcConstraintForcesFromMultipliers : State → Vector
  calcResidualForceIgnoringConstraints : State → Vector

/-- The muscle of interest: the moment arm the solver computes for it, its tendon
force, its path, and the operations that set its activation and equilibrate it. -/
structure Muscle where
  computeMomentArm : State → Coordinate → Double
  getTendonForce : State → Double
  getGeometryPath : GeometryPath
  setActivation : State → Double → State
  equilibrate : State → State

/-- What lines 245-284 gather at a sample: the pose as realized, the tendon force,
the three vectors of generalized forces and the scaling vector `W`. -/
structure DynamicsSample where
  s : State
  force : Double
  equivalentGenForce : Vector
  constraintMobilityForces : Vector
  ivdGenForces : Vector
  W : Vector

/-- Lines 245-284 of `testMomentArmDefinitionForModel`. -/
def dynamicsSample (osimModel : Model) (matter : MatterSubsystem) (muscle : Muscle)
    (coord : Coordinate) (coupledCoordNames : List String) (s : State) : DynamicsSample :=
  let s := osimModel.realize s Stage.Acceleration
  let force := muscle.getTendonForce s
  -- Convert body forces to equivalent mobility forces (joint torques)
  let equivalentGenForce := matter.calcTreeEquivalentMobilityForces s
  let s :=
    if (matter.getSystemStage s).rank < Stage.Dynamics.rank then
      osimModel.realize s Stage.Dynamics
    else s
  -- Get all forces applied to model by constraints
  let constraintMobilityForces := matter.calcConstraintForcesFromMultipliers s
  -- Perform inverse dynamics
  let ivdGenForces := matter.calcResidualForceIgnoringConstraints s
  let W := computeGenForceScaling osimModel s coord coupledCoordNames
  { s := s, force := force, equivalentGenForce := equivalentGenForce,
    constraintMobilityForces := constraintMobilityForces, ivdGenForces := ivdGenForces, W := W }

/-- Result of the dynamic check at a sample: the pose, the two equivalent torques
and the flag `passesDynamicConsistency` after the `try` block. -/
structure DynamicCheck where
  s : State
  equivalentMuscleTorque : Double
  equivalentIvdMuscleTorque : Double
  passesDynamicConsistency : Bool

/-- Lines 245-301 of `testMomentArmDefinitionForModel`: the body of `if(mass!=0)`,
with `ma` the moment arm of the solver. -/
def dynamicConsistencySample (osimModel : Model) (matter : MatterSubsystem) (muscle : Muscle)
    (coord : Coordinate) (coupledCoordNames : List String) (s : State) (ma : Double)
    (passesDynamicConsistency : Bool) : DynamicCheck :=
  let d := dynamicsSample osimModel matter muscle coord coupledCoordNames s
  let tauDirect := equivalentMuscleTorque d.W d.equivalentGenForce
  let tauIVD := equivalentIvdMuscleTorque d.W d.ivdGenForces d.constraintMobilityForces
  { s := d.s, equivalentMuscleTorque := tauDirect, equivalentIvdMuscleTorque := tauIVD,
    passesDynamicConsistency :=
      dynamicConsistencyVerdict passesDynamicConsistency tauIVD tauDirect (ma * d.force) }

/-- Lines 234-241: the `try` block of the definition check and its `catch(...)`,
which sets `passesDefinition = false`; the value is the flag after the block. -/
def definitionVerdict (passesDefinition : Bool) (ma ma_dldtheta : Double) : Bool :=
  match ASSERT_EQUAL ma ma_dldtheta integ_accuracy with
  | Except.ok _ => passesDefinition
  | Except.error _ => false

/-- The variables the sweep carries from one sample to the next. -/
structure SweepState where
  s : State
  q : Double
  passesDefinition : Bool
  passesDynamicConsistency : Bool

/-- One pass of the loop of lines 221-308 of `testMomentArmDefinitionForModel`. -/
def sweepSample (osimModel : Model) (matter : MatterSubsystem) (muscle : Muscle)
    (coord : Coordinate) (coupledCoordNames : List String) (mass dq : Double)
    (st : SweepState) : SweepState :=
  let s := coord.setValue st.s st.q true
  let s := muscle.setActivation s (Double.finite (1 / 10))
  let s := muscle.equilibrate s
  let ma := muscle.computeMomentArm s coord
  let ma_dldtheta := computeMomentArmFromDefinition osimModel s muscle.getGeometryPath coord
  -- Verify that the definition of the moment-arm is satisfied
  let passesDefinition := definitionVerdict st.passesDefinition ma ma_dldtheta
  -- Verify that the moment-arm calculated is dynamically consistent with moment generated
  if mass ≠ Double.finite 0 then
    let check := dynamicConsistencySample osimModel matter muscle coord coupledCoordNames s ma
      st.passesDynamicConsistency
    { s := check.s, q := st.q + dq, passesDefinition := passesDefinition,
      passesDynamicConsistency := check.passesDynamicConsistency }
  else
    { s := s, q := st.q + dq, passesDefinition := passesDefinition,
      passesDynamicConsistency := st.passesDynamicConsistency }

/-! ## The driver `testMomentArmDefinitionForModel` -/

/-- The comparison `a <= b` of C++: false as soon as one side is NaN. -/
def Double.le : Double → Double → Bool
  | Double.finite x, Double.finite y => decide (x ≤ y)
  | Double.finite _, Double.inf b => !b
  | Double.inf a, Double.finite _ => a
  | Double.inf a, Double.inf b => a || !b
  | Double.nan, _ => false
  | _, Double.nan => false

/-- A constraint of the constraint set: its type tag and, for a coordinate coupler,
the names of its independent coordinates and of its dependent coordinate. -/
structure Constraint where
  getType : String
  getIndependentCoordinateNames : List String
  getDependentCoordinateName : String

/-- The loop of lines 193-196 from position `j` on: every entry of `coordNames` whose
position is not `ind` is appended to `coupledCoordNames`. -/
def appendAllBut (ind : Int) : List String → Nat → List String → List String
  | [], _, coupledCoordNames => coupledCoordNames
  | x :: xs, j, coupledCoordNames =>
      appendAllBut ind xs (j + 1)
        (if (j : Int) ≠ ind then coupledCoordNames ++ [x] else coupledCoordNames)

/-- One pass of the loop of lines 184-199 over the constraint set. -/
def coupledCoordNamesStep (coordName : String) (coupledCoordNames : List String)
    (aConstraint : Constraint) : List String :=
  if aConstraint.getType = "CoordinateCouplerConstraint" then
    let coordNames := aConstraint.getIndependentCoordinateNames
    let coordNames := coordNames ++ [aConstraint.getDependentCoordinateName]
    let ind := findIndex coordNames coordName
    if ind > -1 then appendAllBut ind coordNames 0 coupledCoordNames
    else coupledCoordNames
  else coupledCoordNames

/-- Lines 183-199: the array `coupledCoordNames` the driver builds for the
coordinate named `coordName`. -/
def coupledCoordNames (constraintSet : List Constraint) (coordName : String) : List String :=
  constraintSet.foldl (coupledCoordNamesStep coordName) []

/-- An entry of the muscle set: the muscle, its name and its switch `setDisabled`. -/
structure NamedMuscle where
  getName : String
  toMuscle : Muscle
  setDisabled : State → Bool → State

/-- A model as loaded from a file, as far as the driver uses it: its kinematic
part, its muscles, its constraints, the switch `setDisabled` of every force of its
force set, the switch of gravity, and what `initSystem` yields once every body
has been given the mass `some m` (`none`: the masses of the file), namely the
matter subsystem and the working state. -/
structure OsimModel where
  model : Model
  getMuscles : List NamedMuscle
  getConstraintSet : List Constraint
  getForceSet : List (State → Bool → State)
  disableGravity : State → State
  matter : Option Double → MatterSubsystem
  initSystem : Option Double → State

/-- The accessor `get(name)` of a set: the first element of that name, and an
exception when there is none. -/
def getByName {α : Type} (getName : α → String) : List α → String → Except Exception α
  | [], aName => throw (Exception.opensim aName "" (-1))
  | x :: xs, aName => if getName x = aName then pure x else getByName getName xs aName

/-- Element `[0]` of a set. Reading it in an empty set is undefined in the source;
the model raises an exception there. -/
def getFirst {α : Type} : List α → Except Exception α
  | [] => throw (Exception.opensim "" "" (-1))
  | x :: _ => pure x

/-- The loop `for(int i = 0; i <= nsteps; i++)` of line 221 around a body that
updates the variables of the sweep. -/
def sweepLoop (body : SweepState → SweepState) (nsteps : Nat) (i : Nat) (st : SweepState) :
    SweepState :=
  if i ≤ nsteps then sweepLoop body nsteps (i + 1) (body st) else st
termination_by nsteps + 1 - i

/-- The mass handed to `setMass` on every body (lines 173-179): `mass` when
`mass >= 0.0`, none otherwise. -/
def massOverride (mass : Double) : Option Double :=
  if Double.le (Double.finite 0) mass then some mass else none

/-- Lines 158-159, 181 and 201-217: the variables of the sweep before its first
sample. -/
def sweepInit (osimModel : OsimModel) (coord : Coordinate) (muscle : NamedMuscle)
    (rom : Double × Double) (mass : Double) : SweepState :=
  let s := osimModel.initSystem (massOverride mass)
  -- Reset all speeds to zero
  let s := s.zeroU
  -- Disable all forces
  let s := osimModel.getForceSet.foldl (fun s setDisabled => setDisabled s true) s
  -- Also disable gravity
  let s := osimModel.disableGravity s
  -- Enable just muscle we are interested in.
  let s := muscle.setDisabled s false
  let s := coord.setClamped s false
  let s := coord.setLocked s false
  { s := s, q := rom.1, passesDefinition := true, passesDynamicConsistency := true }

/-- The number of steps of the sweep, `nsteps = 10`. -/
def nsteps : Nat := 10

/-- Line 219: `dq = (rom[1]-rom[0])/nsteps`. -/
def sweepStep (rom : Double × Double) : Double := (rom.2 - rom.1) / Double.finite nsteps

/-- Translation of `testMomentArmDefinitionForModel`; `loadModel` is the constructor
`Model osimModel(filename)`. -/
def testMomentArmDefinitionForModel (loadModel : String → Except Exception OsimModel)
    (filename coordName muscleName : String) (rom : Double × Double) (mass : Double) :
    Except Exception Int := do
  -- Load OpenSim model
  let osimModel ← loadModel filename
  let coord ←
    if coordName ≠ "" then getByName Coordinate.getName osimModel.model.getCoordinateSet coordName
    else getFirst osimModel.model.getCoordinateSet
  -- Consider one force, which is the muscle of interest
  let muscle ←
    if muscleName ≠ "" then getByName NamedMuscle.getName osimModel.getMuscles muscleName
    else getFirst osimModel.getMuscles
  let names := coupledCoordNames osimModel.getConstraintSet coord.getName
  let final := sweepLoop
    (sweepSample osimModel.model (osimModel.matter (massOverride mass)) muscle.toMuscle coord
      names mass (sweepStep rom))
    nsteps 0 (sweepInit osimModel coord muscle rom mass)
  -- Minimum requirement to pass is that calculated moment-arm satifies either
  -- dL/dTheta definition or is at least dynamically consistent
  let err : Int := if final.passesDefinition || final.passesDynamicConsistency then 0 else 1
  return err

/-! ## The harness `main` -/

/-- The constant `SimTK::Pi`, the double nearest to the number pi. -/
def Pi : Double := Double.finite (7074237752028440 / 2251799813685248)

/-- The default range of motion of the driver, `Vec2(-Pi/2,0)`. -/
def defaultRom : Double × Double := (-Pi / Double.finite 2, Double.finite 0)

/-- The default mass of the driver, `-1.0`. -/
def defaultMass : Double := Double.finite (-1)

/-- Translation of `main`; what it prints is left out. -/
def main (loadModel : String → Except Exception OsimModel) : Except Exception Int := do
  let stat : Int := 0
  let err ← testMomentArmDefinitionForModel loadModel "gait23_PatellaInFemur.osim"
    "hip_flexion_r" "rect_fem_r" (-Pi / Double.finite 3, Pi / Double.finite 3) defaultMass
  let stat := stat + err
  let err ← testMomentArmDefinitionForModel loadModel "gait23_PatellaInFemur.osim"
    "knee_angle_r" "rect_fem_r"
    (Double.finite (-2) * Pi / Double.finite 3, Pi / Double.finite 18) defaultMass
  let stat := stat + err
  let err ← testMomentArmDefinitionForModel loadModel "gait23_PatellaInFemur.osim"
    "knee_angle_r" "vas_int_r"
    (Double.finite (-2) * Pi / Double.finite 3, Pi / Double.finite 18) defaultMass
  let stat := stat + err
  let err ← testMomentArmDefinitionForModel loadModel "gait2354_patellae.osim"
    "knee_angle_r" "vas_int_r"
    (Double.finite (-2) * Pi / Double.finite 3, Pi / Double.finite 18) defaultMass
  let stat := stat + err
  let err ← testMomentArmDefinitionForModel loadModel "gait2354_simbody.osim"
    "knee_angle_r" "vas_int_r"
    (Double.finite (-2) * Pi / Double.finite 3, Pi / Double.finite 18) defaultMass
  let stat := stat + err
  -- massless should not break moment-arm solver
  let err ← testMomentArmDefinitionForModel loadModel "wrist_mass.osim" "flexion"
    "ECU_post-surgery" (-Pi / Double.finite 3, Pi / Double.finite 3) (Double.finite 0)
  let stat := stat + err
  let err ← testMomentArmDefinitionForModel loadModel "wrist_mass.osim" "flexion"
    "ECU_post-surgery" (-Pi / Double.finite 3, Pi / Double.finite 3) (Double.finite 1)
  let stat := stat + err
  let err ← testMomentArmDefinitionForModel loadModel "wrist_mass.osim" "flexion"
    "ECU_post-surgery" (-Pi / Double.finite 3, Pi / Double.finite 3) (Double.finite 100)
  let stat := stat + err
  let _ ← testMomentArmDefinitionForModel loadModel "P2PBallJointMomentArmTest.osim" "" ""
    defaultRom defaultMass
  let err ← testMomentArmDefinitionForModel loadModel "P2PBallCustomJointMomentArmTest.osim"
    "" "" defaultRom defaultMass
  let stat := stat + err
  let err ← testMomentArmDefinitionForModel loadModel "MovingPathPointMomentArmTest.osim" ""
    "" defaultRom defaultMass
  let stat := stat + err
  let err ← testMomentArmDefinitionForModel loadModel "P2PCustomJointMomentArmTest.osim" "" ""
    defaultRom defaultMass
  let stat := stat + err
  let err ← testMomentArmDefinitionForModel loadModel
    "MovingPointCustomJointMomentArmTest.osim" "" "" defaultRom defaultMass
  let stat := stat + err
  let err ← testMomentArmDefinitionForModel loadModel "WrapPathCustomJointMomentArmTest.osim"
    "" "" defaultRom defaultMass
  let stat := stat + err
  let err ← testMomentArmDefinitionForModel loadModel
    "PathOnConstrainedBodyMomentArmTest.osim" "" "" defaultRom defaultMass
  let stat := stat + err
  return stat

/-- The test cases of `main` in the order of the calls: file, coordinate, muscle,
range of motion and mass. -/
def testCases : List (String × String × String × (Double × Double) × Double) :=
  [("gait23_PatellaInFemur.osim", "hip_flexion_r", "rect_fem_r",
      (-Pi / Double.finite 3, Pi / Double.finite 3), defaultMass),
   ("gait23_PatellaInFemur.osim", "knee_angle_r", "rect_fem_r",
      (Double.finite (-2) * Pi / Double.finite 3, Pi / Double.finite 18), defaultMass),
   ("gait23_PatellaInFemur.osim", "knee_angle_r", "vas_int_r",
      (Double.finite (-2) * Pi / Double.finite 3, Pi / Double.finite 18), defaultMass),
   ("gait2354_patellae.osim", "knee_angle_r", "vas_int_r",
      (Double.finite (-2) * Pi / Double.finite 3, Pi / Double.finite 18), defaultMass),
   ("gait2354_simbody.osim", "knee_angle_r", "vas_int_r",
      (Double.finite (-2) * Pi / Double.finite 3, Pi / Double.finite 18), defaultMass),
   ("wrist_mass.osim", "flexion", "ECU_post-surgery",
      (-Pi / Double.finite 3, Pi / Double.finite 3), Double.finite 0),
   ("wrist_mass.osim", "flexion", "ECU_post-surgery",
      (-Pi / Double.finite 3, Pi / Double.finite 3), Double.finite 1),
   ("wrist_mass.osim", "flexion", "ECU_post-surgery",
      (-Pi / Double.finite 3, Pi / Double.finite 3), Double.finite 100),
   ("P2PBallJointMomentArmTest.osim", "", "", defaultRom, defaultMass),
   ("P2PBallCustomJointMomentArmTest.osim", "", "", defaultRom, defaultMass),
   ("MovingPathPointMomentArmTest.osim", "", "", defaultRom, defaultMass),
   ("P2PCustomJointMomentArmTest.osim", "", "", defaultRom, defaultMass),
   ("MovingPointCustomJointMomentArmTest.osim", "", "", defaultRom, defaultMass),
   ("WrapPathCustomJointMomentArmTest.osim", "", "", defaultRom, defaultMass),
   ("PathOnConstrainedBodyMomentArmTest.osim", "", "", defaultRom, defaultMass)]

/-- The call of `testMomentArmDefinitionForModel` for one test case. -/
def runCase (loadModel : String → Except Exception OsimModel)
    (c : String × String × String × (Double × Double) × Double) : Except Exception Int :=
  testMomentArmDefinitionForModel loadModel c.1 c.2.1 c.2.2.1 c.2.2.2.1 c.2.2.2.2

/-- The status `main` returns from the results of its fifteen calls: the sum of all
of them but the ninth, whose `err` is overwritten before it is added. -/
def statusOf : List Int → Int
  | [e1, e2, e3, e4, e5, e6, e7, e8, _, e10, e11, e12, e13, e14, e15] =>
      0 + e1 + e2 + e3 + e4 + e5 + e6 + e7 + e8 + e10 + e11 + e12 + e13 + e14 + e15
  | _ => 0

/-- The pose of a sample after lines 222-226: the coordinate set to `q`, the
activation set to `0.1`, the muscle equilibrated. -/
def samplePose (muscle : Muscle) (coord : Coordinate) (st : SweepState) : State :=
  muscle.equilibrate
    (muscle.setActivation (coord.setValue st.s st.q true) (Double.finite (1 / 10)))

/-- The definition check passes at a sample: the assertion of line 236 does not
throw. -/
def definitionCheckPasses (osimModel : Model) (muscle : Muscle) (coord : Coordinate)
    (st : SweepState) : Bool :=
  let s := samplePose muscle coord st
  match ASSERT_EQUAL (muscle.computeMomentArm s coord)
      (computeMomentArmFromDefinition osimModel s muscle.getGeometryPath coord)
      integ_accuracy with
  | Except.ok _ => true
  | Except.error _ => false

/-- The dynamic check passes at a sample: neither assertion of lines 295-297
throws. -/
def dynamicCheckPasses (osimModel : Model) (matter : MatterSubsystem) (muscle : Muscle)
    (coord : Coordinate) (coupledCoordNames : List String) (st : SweepState) : Bool :=
  let s := samplePose muscle coord st
  let ma := muscle.computeMomentArm s coord
  let d := dynamicsSample osimModel matter muscle coord coupledCoordNames s
  match dynamicConsistencyAsserts
      (equivalentIvdMuscleTorque d.W d.ivdGenForces d.constraintMobilityForces)
      (equivalentMuscleTorque d.W d.equivalentGenForce) (ma * d.force) with
  | Except.ok _ => true
  | Except.error _ => false

/-! ## The two poses of the helpers

`computeMomentArmFromDefinition` and `computeGenForceScaling` receive the pose of
the caller as `const State &s` and work on the copy `s_ma`. The definitions below
repeat the two functions with both poses carried along, every statement of the
source acting on the pose it names. -/

/-- The pose `s` of the caller and the private copy `s_ma`. -/
structure Poses where
  s : State
  s_ma : State

/-- The statements of `computeMomentArmFromDefinition` on the two poses; the value
is the pair of the poses at the `return` and of the value returned. -/
def computeMomentArmFromDefinitionPoses (osimModel : Model) (s : State)
    (path : GeometryPath) (coord : Coordinate) : Poses × Double :=
  let p : Poses := { s := s, s_ma := s }
  let p := { p with s_ma := coord.setClamped p.s_ma false }
  let p := { p with s_ma := coord.setLocked p.s_ma false }
  let theta := coord.getValue p.s
  let dtheta := integ_accuracy
  -- Compute length 1
  let p := { p with s_ma := coord.setValue p.s_ma (theta - dtheta) true }
  let theta1 := coord.getValue p.s_ma
  let p := { p with s_ma := osimModel.realize p.s_ma Stage.Position }
  let len1 := path.getLength p.s_ma
  -- Compute length 2
  let p := { p with s_ma := coord.setValue p.s_ma (theta + dtheta) true }
  let theta2 := coord.getValue p.s_ma
  let p := { p with s_ma := osimModel.realize p.s_ma Stage.Position }
  let len2 := path.getLength p.s_ma
  (p, (len1 - len2) / (theta2 - theta1))

/-- The statements of `computeGenForceScaling` on the two poses; the value is the
pair of the poses at the `return` and of the vector returned. -/
def computeGenForceScalingPoses (osimModel : Model) (s : State) (coord : Coordinate)
    (coupledCoords : List String) : Poses × Vector :=
  -- Local modifiable copy of the state
  let p : Poses := { s := s, s_ma := s }
  let p := { p with s_ma := osimModel.realize p.s_ma Stage.Instance }
  let p := { p with s_ma := p.s_ma.zeroU }
  let p := { p with s_ma := coord.setSpeedValue osimModel p.s_ma (Double.finite 1) }
  let p := { p with s_ma := osimModel.realize p.s_ma Stage.Velocity }
  let p := { p with s_ma := osimModel.project p.s_ma }
  let C := Vector.divScalar p.s_ma.u (coord.getSpeedValue osimModel p.s_ma)
  let W : Vector := List.replicate osimModel.getNumSpeeds (Double.finite 0)
  (p, osimModel.getCoordinateSet.foldl (genForceScalingStep osimModel coord coupledCoords C) W)

/-! ## `OpenSim/Auxiliary/auxiliaryTestFunctions.h` -/

namespace auxiliaryTestFunctions

/-- The template `ASSERT_EQUAL(expected, found, tolerance, file, line, message)` of the
header, at the type `double`; the defaults of the last three arguments are not
modelled. -/
def ASSERT_EQUAL (expected found tolerance : Double) (file : String) (line : Int)
    (message : String) : Except Exception Unit :=
  if Double.lt found (expected - tolerance) || Double.lt (expected + tolerance) found then
    throw (Exception.opensim message file line)
  else pure ()

/-- The function `ASSERT(cond, file, line, message)` of the header; the defaults of
the last three arguments are not modelled. -/
def ASSERT (cond : Bool) (file : String) (line : Int) (message : String) :
    Except Exception Unit :=
  if !cond then throw (Exception.opensim message file line) else pure ()

/-- The loop of lines 54-59 from column `i` on, over `columns` columns. -/
def checkColumns (comparisons tolerances : Vector) (testFile : String) (testFileLine : Int)
    (errorMessage : String) (columns : Nat) (i : Nat) : Except Exception Unit :=
  if i < columns then do
    ASSERT (Double.lt (elt comparisons i) (elt tolerances i)) testFile testFileLine errorMessage
    checkColumns comparisons tolerances testFile testFileLine errorMessage columns (i + 1)
  else pure ()
termination_by columns - i

/-- Translation of `CHECK_STORAGE_AGAINST_STANDARD`; `compareWithStandard` is the method
of the storage `result`, which yields the columns it compared and the RMS error
of each of them. -/
def CHECK_STORAGE_AGAINST_STANDARD {Storage : Type}
    (compareWithStandard : Storage → Storage → List String × Vector)
    (result standard : Storage) (tolerances : Vector) (testFile : String) (testFileLine : Int)
    (errorMessage : String) : Except Exception Unit :=
  let (columnsUsed, comparisons) := compareWithStandard result standard
  let columns := columnsUsed.length
  checkColumns comparisons tolerances testFile testFileLine errorMessage columns 0

end auxiliaryTestFunctions

/-! ## Concrete collaborators

Small engines on which the definitions above can be evaluated. -/

/-- A coordinate stored in entry `i` of `q`, on mobilized body `i`, whose setter
stores the requested value as it is. -/
def plainCoordinate (name : String) (motion : MotionType) (joint : String) (i : Nat) :
    Coordinate where
  getName := name
  getMotionType := motion
  getJointName := joint
  getBodyIndex := i
  getMobilityIndex := 0
  getValue := fun s => elt s.q i
  setValue := fun s v _ => { s with q := s.q.set i v }
  setClamped := fun s b => { s with clamped := s.clamped.set i b }
  setLocked := fun s b => { s with locked := s.locked.set i b }

/-- A single coordinate kept at the head of `q`, on mobilized body `0`, whose
setter stores the requested value as it is. -/
def pendulumCoordinate : Coordinate where
  getName := "theta"
  getMotionType := MotionType.Rotational
  getJointName := "pin"
  getBodyIndex := 0
  getMobilityIndex := 0
  getValue := fun s => s.q.headD Double.nan
  setValue := fun s v _ => { s with q := v :: s.q.tail }
  setClamped := fun s b => { s with clamped := b :: s.clamped.tail }
  setLocked := fun s b => { s with locked := b :: s.locked.tail }

/-- The pendulum coordinate with a setter that saturates at the upper bound `hi`
whatever the clamp flag says (a range enforced when the pose is assembled). -/
def saturatingCoordinate (hi : Double) : Coordinate :=
  { pendulumCoordinate with
    setValue := fun s v _ => { s with q := (if Double.lt hi v then hi else v) :: s.q.tail } }

/-- The pendulum coordinate with a prescribed value: the setter leaves the pose
as it is. -/
def prescribedCoordinate : Coordinate :=
  { pendulumCoordinate with setValue := fun s _ _ => s }

/-- A model over the given coordinates whose `realize` and `project` leave the
pose as it is, and whose mobilized body `i` owns speed `i`. -/
def plainModel (coords : List Coordinate) (nu : Nat) : Model where
  getCoordinateSet := coords
  getNumSpeeds := nu
  realize := fun s _ => s
  project := fun s => s
  getFirstUIndex := fun i => i

/-- A pose with one coordinate of value `x`, at rest, clamped and unlocked. -/
def onePose (x : ℚ) : State where
  q := [Double.finite x]
  u := [Double.finite 0]
  clamped := [true]
  locked := [false]

/-- A path whose length is `a + b * theta + c * theta ^ 2` in the first coordinate
`theta`, where that is finite. -/
def quadraticPath (a b c : ℚ) : GeometryPath where
  getLength := fun s =>
    match s.q.headD Double.nan with
    | Double.finite x => Double.finite (a + b * x + c * x ^ 2)
    | _ => Double.nan

/-- A sliding coordinate named `x`, on mobilized body `0`. -/
def sliderCoordinate : Coordinate := plainCoordinate "x" MotionType.Translational "slider" 0

/-- A rotational coordinate on mobilized body `i`. -/
def hingeCoordinate (name joint : String) (i : Nat) : Coordinate :=
  plainCoordinate name MotionType.Rotational joint i

/-- A model with two speeds whose projection enforces `u1 = 2 * u0`. -/
def couplerModel (coords : List Coordinate) : Model where
  getCoordinateSet := coords
  getNumSpeeds := 2
  realize := fun s _ => s
  project := fun s => { s with u := [elt s.u 0, Double.finite 2 * elt s.u 0] }
  getFirstUIndex := fun i => i

/-- First coordinate of the coupled pair, on the joint `pin1`. -/
def theta1Hinge : Coordinate := hingeCoordinate "theta1" "pin1" 0

/-- Second coordinate of the coupled pair, on the joint `pin2`. -/
def theta2Hinge : Coordinate := hingeCoordinate "theta2" "pin2" 1

/-- A second coordinate that sits on the joint named `tib_pat_r`. -/
def patellaHinge : Coordinate := hingeCoordinate "theta2" "tib_pat_r" 1

/-- A pose with two coordinates, at rest. -/
def twoPose : State where
  q := [Double.finite 0, Double.finite 0]
  u := [Double.finite 0, Double.finite 0]
  clamped := [true, true]
  locked := [false, false]

/-- A matter subsystem, realized through `Acceleration`, that reports the same
three vectors of generalized forces at every pose. -/
def constantMatter (equivalentGenForce constraintMobilityForces ivdGenForces : Vector) :
    MatterSubsystem where
  getSystemStage := fun _ => Stage.Acceleration
  calcTreeEquivalentMobilityForces := fun _ => equivalentGenForce
  calcConstraintForcesFromMultipliers := fun _ => constraintMobilityForces
  calcResidualForceIgnoringConstraints := fun _ => ivdGenForces

/-- A muscle with the same moment arm and the same tendon force at every pose. -/
def constantMuscle (momentArm tendonForce : Double) (path : GeometryPath) : Muscle where
  computeMomentArm := fun _ _ => momentArm
  getTendonForce := fun _ => tendonForce
  getGeometryPath := path
  setActivation := fun s _ => s
  equilibrate := fun s => s

/-- The variables of the sweep before a sample at the coordinate value `x`, with
both flags still true. -/
def sweepStart (x : ℚ) : SweepState where
  s := onePose x
  q := Double.finite x
  passesDefinition := true
  passesDynamicConsistency := true

/-- The pendulum scenario: one rotational coordinate, one speed. -/
def scenarioModel : Model := plainModel [pendulumCoordinate] 1

/-- The pendulum scenario: the direct and the inverse-dynamics generalized force
are both `5`, and no constraint acts. -/
def scenarioMatter : MatterSubsystem :=
  constantMatter [Double.finite 5] [Double.finite 0] [Double.finite 5]

/-- The pendulum scenario: a muscle of moment arm `0.05` and tendon force `100` on a
path of length `-0.05 * theta`. -/
def scenarioMuscle : Muscle :=
  constantMuscle (Double.finite (1 / 20)) (Double.finite 100) (quadraticPath 0 (-(1 / 20)) 0)

/-- Modelled from the spec: the matter subsystem of a single-degree-of-freedom model
actuated by one muscle of moment arm `r` and tendon force `f`; the engine that
computes these vectors is not among the translated sources. The moment arm
converts the scalar force into the generalized force on the coordinate (the
definition `r*f = Tau` of the header of the driver), so the direct generalized
force is `r * f`; inverse dynamics expresses the same net generalized force; no
constraint acts on the model. -/
def singleDofMatter (r f : Double) : MatterSubsystem :=
  constantMatter [r * f] [Double.finite 0] [r * f]

/-- The pendulum scenario as a loaded model: the coordinate `theta`, one muscle
named `muscle`, one force, no constraint, every switch leaving the pose as it
is. -/
def scenarioOsimModel : OsimModel where
  model := scenarioModel
  getMuscles := [{ getName := "muscle", toMuscle := scenarioMuscle, setDisabled := fun s _ => s }]
  getConstraintSet := []
  getForceSet := [fun s _ => s]
  disableGravity := fun s => s
  matter := fun _ => scenarioMatter
  initSystem := fun _ => onePose 0

/-- A loader that finds the pendulum scenario under every file name. -/
def scenarioLoad : String → Except Exception OsimModel := fun _ => pure scenarioOsimModel

/-- A coupler that ties the coordinate `d` to `a` and `b`. -/
def couplerOf (a b d : String) : Constraint where
  getType := "CoordinateCouplerConstraint"
  getIndependentCoordinateNames := [a, b]
  getDependentCoordinateName := d

/-- A storage whose comparison with a standard yields the pairs it holds: the name
of a column and its RMS error. -/
def plainCompare (result _standard : List (String × Double)) : List String × Vector :=
  (result.map Prod.fst, result.map Prod.snd)

/-- A model with one speed whose projection halves every speed. -/
def halvingModel (coords : List Coordinate) : Model where
  getCoordinateSet := coords
  getNumSpeeds := 1
  realize := fun s _ => s
  project := fun s => { s with u := s.u.map (fun x => x / Double.finite 2) }
  getFirstUIndex := fun i => i

/-- The pendulum coordinate under another name. -/
def namedPendulum (name : String) : Coordinate := { pendulumCoordinate with getName := name }

/-- A muscle whose solver reports the moment arm `1` on the path of length
`-0.05 * theta`, whose moment arm by the definition is `0.05`. -/
def inconsistentMuscle : Muscle :=
  constantMuscle (Double.finite 1) (Double.finite 100) (quadraticPath 0 (-(1 / 20)) 0)

/-- A matter subsystem whose direct generalized force, `5`, differs from the one of
inverse dynamics, `7`. -/
def inconsistentMatter : MatterSubsystem :=
  constantMatter [Double.finite 5] [Double.finite 0] [Double.finite 7]

/-- A loaded model that has the coordinates and the muscles the test cases of `main`
name: three pendulum coordinates on one speed and three entries of the muscle set
that share the given muscle. -/
def batteryOsimModel (muscle : Muscle) (matter : MatterSubsystem) : OsimModel where
  model := plainModel
    [namedPendulum "hip_flexion_r", namedPendulum "knee_angle_r", namedPendulum "flexion"] 1
  getMuscles :=
    [{ getName := "rect_fem_r", toMuscle := muscle, setDisabled := fun s _ => s },
     { getName := "vas_int_r", toMuscle := muscle, setDisabled := fun s _ => s },
     { getName := "ECU_post-surgery", toMuscle := muscle, setDisabled := fun s _ => s }]
  getConstraintSet := []
  getForceSet := [fun s _ => s]
  disableGravity := fun s => s
  matter := fun _ => matter
  initSystem := fun _ => onePose 0

/-- A loader that finds, under every file name, the model with the inconsistent
muscle. -/
def inconsistentLoad : String → Except Exception OsimModel := fun _ =>
  pure (batteryOsimModel inconsistentMuscle inconsistentMatter)

/-- A loader under which the file `P2PBallJointMomentArmTest.osim` holds the
inconsistent muscle and every other file the consistent one. -/
def batteryLoad : String → Except Exception OsimModel := fun filename =>
  if filename = "P2PBallJointMomentArmTest.osim" then
    pure (batteryOsimModel inconsistentMuscle inconsistentMatter)
  else pure (batteryOsimModel scenarioMuscle scenarioMatter)

/-- The bound of the comparison as its description words it,
`|found - expected| <= max(tolerance, |expected * tolerance|)`, evaluated on doubles
as C++ evaluates it, every comparison with NaN being false. -/
def withinCombinedBound (expected found tolerance : Double) : Bool :=
  Double.le (Double.abs (found - expected))
    (Double.max tolerance (Double.abs (expected * tolerance)))

/-- The estimates `estimate d`, one for each step `d`, stay within `O(d)` of
`target`: some constant `K` bounds the error by `K * d` at every positive step. -/
def WithinOrderOfStep (estimate : ℚ → Double) (target : ℚ) : Prop :=
  ∃ K : ℚ, ∀ d : ℚ, 0 < d → ∃ r : ℚ, estimate d = Double.finite r ∧ |r - target| ≤ K * d

/-! ## Arithmetic of finite doubles -/

theorem Double.finite_add (x y : ℚ) : Double.finite x + Double.finite y = Double.finite (x + y) :=
  rfl

theorem Double.finite_sub (x y : ℚ) : Double.finite x - Double.finite y = Double.finite (x - y) := by
  show Double.add (Double.finite x) (Double.neg (Double.finite y)) = _
  simp [Double.add, Double.neg, sub_eq_add_neg]

theorem Double.finite_mul (x y : ℚ) : Double.finite x * Double.finite y = Double.finite (x * y) :=
  rfl

theorem Double.finite_div (x y : ℚ) (hy : y ≠ 0) :
    Double.finite x / Double.finite y = Double.finite (x / y) := by
  show Double.div (Double.finite x) (Double.finite y) = _
  simp [Double.div, hy]

theorem Double.finite_div_zero (x : ℚ) :
    Double.finite x / Double.finite 0 =
      if x = 0 then Double.nan else Double.inf (decide (x < 0)) := by
  show Double.div (Double.finite x) (Double.finite 0) = _
  simp [Double.div]

theorem Double.lt_finite (x y : ℚ) :
    Double.lt (Double.finite x) (Double.finite y) = decide (x < y) := rfl

theorem Double.abs_finite (x : ℚ) : Double.abs (Double.finite x) = Double.finite |x| := rfl

/-! ## Vectors and the search in an array of names -/

theorem elt_set (W : Vector) (j i : Nat) (v : Double) (hi : i < W.length) :
    elt (W.set j v) i = if j = i then v else elt W i := by
  unfold elt
  simp only [List.getD_eq_getElem?_getD, List.getElem?_set]
  split_ifs with h1 h2
  · rfl
  · exact absurd (h1 ▸ hi) h2
  · rfl

theorem elt_replicate (n i : Nat) (v : Double) (hi : i < n) : elt (List.replicate n v) i = v := by
  unfold elt
  simp [List.getD_eq_getElem?_getD, List.getElem?_replicate, hi]

theorem elt_map_zero (l : Vector) (i : Nat) (hi : i < l.length) :
    elt (l.map (fun _ => Double.finite 0)) i = Double.finite 0 := by
  unfold elt
  simp [List.getD_eq_getElem?_getD, hi]

theorem nan_div (d : Double) : Double.nan / d = Double.nan := by
  cases d <;> rfl

theorem elt_divScalar (U : Vector) (d : Double) (i : Nat) :
    elt (Vector.divScalar U d) i = elt U i / d := by
  unfold elt Vector.divScalar
  simp only [List.getD_eq_getElem?_getD, List.getElem?_map]
  cases h : U[i]? with
  | none => simp [nan_div]
  | some x => simp

theorem findIndexFrom_gt_iff (aValue : String) (arr : List String) (i : Nat) :
    findIndexFrom aValue arr i > -1 ↔ aValue ∈ arr := by
  induction arr generalizing i with
  | nil => simp [findIndexFrom]
  | cons x xs ih =>
    unfold findIndexFrom
    split_ifs with h
    · subst h
      simp
      omega
    · rw [ih (i + 1)]
      simp [List.mem_cons, Ne.symm h]

/-! ## The finite-difference estimate -/

/-- On a path whose length is `a + b * theta + c * theta ^ 2`, with a setter that
stores what it is asked to store, the estimate with a non-zero step `d` is
`-(b + 2 * c * theta)`, with no truncation error. -/
theorem momentArmFromDefinitionWithStep_quadratic (osimModel : Model) (s : State)
    (path : GeometryPath) (coord : Coordinate) (a b c theta d : ℚ)
    (hset : ∀ p v e, coord.getValue (coord.setValue p v e) = v)
    (hreal : ∀ p g, coord.getValue (osimModel.realize p g) = coord.getValue p)
    (hlen : ∀ p x, coord.getValue p = Double.finite x →
      path.getLength p = Double.finite (a + b * x + c * x ^ 2))
    (htheta : coord.getValue s = Double.finite theta) (hd : d ≠ 0) :
    momentArmFromDefinitionWithStep (Double.finite d) osimModel s path coord =
      Double.finite (-(b + 2 * c * theta)) := by
  have h1 : ∀ p x e, path.getLength (osimModel.realize (coord.setValue p (Double.finite x) e)
      Stage.Position) = Double.finite (a + b * x + c * x ^ 2) := by
    intro p x e
    apply hlen
    rw [hreal, hset]
  simp only [momentArmFromDefinitionWithStep, htheta, Double.finite_sub, Double.finite_add, h1,
    hset]
  have h2 : theta + d - (theta - d) ≠ 0 := by
    have : theta + d - (theta - d) = 2 * d := by ring
    rw [this]
    exact mul_ne_zero two_ne_zero hd
  rw [Double.finite_div _ _ h2]
  congr 1
  have h3 : theta + d - (theta - d) = 2 * d := by ring
  rw [h3]
  field_simp
  ring

/-- C1: for every pose, path and coordinate, `computeMomentArmFromDefinition` returns
`(len1 - len2) / (theta2 - theta1)`, where `theta` is read from the pose of the
caller, `theta1` and `theta2` are read back from the private copy (unclamped and
unlocked) after the coordinate was set to `theta - integ_accuracy` and to
`theta + integ_accuracy`, and `len1`, `len2` are the path lengths at the two poses.
The denominator is the read-back one: with a setter that saturates at `0`, at
`theta = 0` on the path of length `theta`, the result is `-1`, while the quotient
by `(theta + dtheta) - (theta - dtheta)` is `-1/2`. -/
theorem computeMomentArmFromDefinition_eq_quotient :
    (∀ (osimModel : Model) (s : State) (path : GeometryPath) (coord : Coordinate),
      let theta := coord.getValue s
      let copy := coord.setLocked (coord.setClamped s false) false
      let first := coord.setValue copy (theta - integ_accuracy) true
      let theta1 := coord.getValue first
      let len1 := path.getLength (osimModel.realize first Stage.Position)
      let second :=
        coord.setValue (osimModel.realize first Stage.Position) (theta + integ_accuracy) true
      let theta2 := coord.getValue second
      let len2 := path.getLength (osimModel.realize second Stage.Position)
      computeMomentArmFromDefinition osimModel s path coord = (len1 - len2) / (theta2 - theta1)) ∧
    computeMomentArmFromDefinition (plainModel [saturatingCoordinate (Double.finite 0)] 1)
        (onePose 0) (quadraticPath 0 1 0) (saturatingCoordinate (Double.finite 0)) =
      Double.finite (-1) ∧
    (Double.finite (-(1 / 1000)) - Double.finite 0) /
        ((Double.finite 0 + integ_accuracy) - (Double.finite 0 - integ_accuracy)) =
      Double.finite (-(1 / 2)) := by
  refine ⟨fun osimModel s path coord => rfl, ?_, ?_⟩
  · norm_num [computeMomentArmFromDefinition, momentArmFromDefinitionWithStep, plainModel,
      onePose, quadraticPath, saturatingCoordinate, pendulumCoordinate, integ_accuracy,
      Double.finite_sub, Double.finite_add, Double.lt_finite, Double.finite_div]
  · norm_num [integ_accuracy, Double.finite_sub, Double.finite_add, Double.finite_div]

/-- C2, as stated, fails: on the path of length `theta` (`a = 0`, `b = 1`, `c = 0`),
with a setter that stores the requested value, the estimate at `theta = 0` is `-1`
at the step of the source, and it is not within `O(step)` of the derivative `1`. -/
theorem computeMomentArmFromDefinition_not_derivative :
    computeMomentArmFromDefinition (plainModel [pendulumCoordinate] 1) (onePose 0)
        (quadraticPath 0 1 0) pendulumCoordinate = Double.finite (-1) ∧
    ¬ WithinOrderOfStep
      (fun d => momentArmFromDefinitionWithStep (Double.finite d)
        (plainModel [pendulumCoordinate] 1) (onePose 0) (quadraticPath 0 1 0)
        pendulumCoordinate) 1 := by
  have key : ∀ d : ℚ, d ≠ 0 →
      momentArmFromDefinitionWithStep (Double.finite d) (plainModel [pendulumCoordinate] 1)
        (onePose 0) (quadraticPath 0 1 0) pendulumCoordinate = Double.finite (-1) := by
    intro d hd
    have h := momentArmFromDefinitionWithStep_quadratic (plainModel [pendulumCoordinate] 1)
      (onePose 0) (quadraticPath 0 1 0) pendulumCoordinate 0 1 0 0 d
      (fun p v e => rfl) (fun p g => rfl)
      (fun p x hx => by
        simp only [pendulumCoordinate] at hx
        simp only [quadraticPath, hx])
      rfl hd
    rw [h]
    norm_num
  constructor
  · exact key (1 / 1000) (by norm_num)
  · rintro ⟨K, hK⟩
    have hpos : (0 : ℚ) < 1 / (|K| + 1) := by positivity
    obtain ⟨r, hr, hbound⟩ := hK (1 / (|K| + 1)) hpos
    have hr := (key _ (ne_of_gt hpos)).symm.trans hr
    have hr1 : r = -1 := (Double.finite.inj hr).symm
    subst hr1
    have h1 : K * (1 / (|K| + 1)) ≤ 1 := by
      rw [mul_one_div, div_le_one (by positivity)]
      linarith [le_abs_self K]
    have h2 : |(-1 : ℚ) - 1| = 2 := by norm_num
    rw [h2] at hbound
    linarith

/-- C2, amended: on a path whose length is `a + b * theta + c * theta ^ 2` (linear
when `c = 0`), with a setter that stores the requested value, the estimate is
within `O(step)` of the negative of the derivative, `-(b + 2 * c * theta)`, and
so it is at the step `integ_accuracy = 1/1000` of the source. -/
theorem computeMomentArmFromDefinition_near_negated_derivative (osimModel : Model) (s : State)
    (path : GeometryPath) (coord : Coordinate) (a b c theta : ℚ)
    (hset : ∀ p v e, coord.getValue (coord.setValue p v e) = v)
    (hreal : ∀ p g, coord.getValue (osimModel.realize p g) = coord.getValue p)
    (hlen : ∀ p x, coord.getValue p = Double.finite x →
      path.getLength p = Double.finite (a + b * x + c * x ^ 2))
    (htheta : coord.getValue s = Double.finite theta) :
    ∃ K : ℚ,
      (∀ d : ℚ, 0 < d → ∃ r : ℚ,
        momentArmFromDefinitionWithStep (Double.finite d) osimModel s path coord =
          Double.finite r ∧ |r - (-(b + 2 * c * theta))| ≤ K * d) ∧
      ∃ r : ℚ, computeMomentArmFromDefinition osimModel s path coord = Double.finite r ∧
        |r - (-(b + 2 * c * theta))| ≤ K * (1 / 1000) := by
  refine ⟨0, fun d hd => ⟨-(b + 2 * c * theta), ?_, by simp⟩, -(b + 2 * c * theta), ?_, by simp⟩
  · exact momentArmFromDefinitionWithStep_quadratic osimModel s path coord a b c theta d
      hset hreal hlen htheta (ne_of_gt hd)
  · exact momentArmFromDefinitionWithStep_quadratic osimModel s path coord a b c theta (1 / 1000)
      hset hreal hlen htheta (by norm_num)

/-- Witness of the amended C2: the pendulum coordinate at `theta = 3/10` on the path
of length `1 + 2 * theta + 5 * theta ^ 2`. -/
theorem computeMomentArmFromDefinition_near_negated_derivative_witness :
    ∃ K : ℚ,
      (∀ d : ℚ, 0 < d → ∃ r : ℚ,
        momentArmFromDefinitionWithStep (Double.finite d) (plainModel [pendulumCoordinate] 1)
          (onePose (3 / 10)) (quadraticPath 1 2 5) pendulumCoordinate =
          Double.finite r ∧ |r - (-(2 + 2 * 5 * (3 / 10)))| ≤ K * d) ∧
      ∃ r : ℚ, computeMomentArmFromDefinition (plainModel [pendulumCoordinate] 1)
          (onePose (3 / 10)) (quadraticPath 1 2 5) pendulumCoordinate = Double.finite r ∧
        |r - (-(2 + 2 * 5 * (3 / 10)))| ≤ K * (1 / 1000) :=
  computeMomentArmFromDefinition_near_negated_derivative (plainModel [pendulumCoordinate] 1)
    (onePose (3 / 10)) (quadraticPath 1 2 5) pendulumCoordinate 1 2 5 (3 / 10)
    (fun p v e => rfl) (fun p g => rfl)
    (fun p x hx => by
      simp only [pendulumCoordinate] at hx
      simp only [quadraticPath, hx])
    rfl

/-- C3, as stated, fails: with a prescribed coordinate both read-back values are the
value of the caller (`theta1 = theta2`), no error is signalled, and the value
returned is the quotient `0 / 0`, which is NaN. -/
theorem computeMomentArmFromDefinition_collapse_returns_nan :
    prescribedCoordinate.getValue
        (prescribedCoordinate.setValue (onePose 0) (Double.finite (-(1 / 1000))) true) =
      prescribedCoordinate.getValue
        (prescribedCoordinate.setValue (onePose 0) (Double.finite (1 / 1000)) true) ∧
    computeMomentArmFromDefinition (plainModel [prescribedCoordinate] 1) (onePose 0)
        (quadraticPath 0 1 0) prescribedCoordinate = Double.finite 0 / Double.finite 0 ∧
    computeMomentArmFromDefinition (plainModel [prescribedCoordinate] 1) (onePose 0)
        (quadraticPath 0 1 0) prescribedCoordinate = Double.nan := by
  refine ⟨rfl, ?_, ?_⟩ <;>
  norm_num [computeMomentArmFromDefinition, momentArmFromDefinitionWithStep, plainModel,
    onePose, quadraticPath, prescribedCoordinate, pendulumCoordinate, integ_accuracy,
    Double.finite_sub, Double.finite_add, Double.finite_div_zero]

/-- C3, amended: when the perturbation collapses, the two read-back values being the
same finite number, `computeMomentArmFromDefinition` signals nothing and returns
the quotient of `len1 - len2` by zero: NaN when the two lengths are equal, and
otherwise the infinity that has the sign of `len1 - len2`. -/
theorem computeMomentArmFromDefinition_collapse (osimModel : Model) (s : State)
    (path : GeometryPath) (coord : Coordinate) (t len1 len2 : ℚ)
    (h1 : coord.getValue (coord.setValue (coord.setLocked (coord.setClamped s false) false)
      (coord.getValue s - integ_accuracy) true) = Double.finite t)
    (h2 : coord.getValue (coord.setValue (osimModel.realize (coord.setValue
      (coord.setLocked (coord.setClamped s false) false)
      (coord.getValue s - integ_accuracy) true) Stage.Position)
      (coord.getValue s + integ_accuracy) true) = Double.finite t)
    (hlen1 : path.getLength (osimModel.realize (coord.setValue
      (coord.setLocked (coord.setClamped s false) false)
      (coord.getValue s - integ_accuracy) true) Stage.Position) = Double.finite len1)
    (hlen2 : path.getLength (osimModel.realize (coord.setValue (osimModel.realize
      (coord.setValue (coord.setLocked (coord.setClamped s false) false)
      (coord.getValue s - integ_accuracy) true) Stage.Position)
      (coord.getValue s + integ_accuracy) true) Stage.Position) = Double.finite len2) :
    computeMomentArmFromDefinition osimModel s path coord =
      if len1 = len2 then Double.nan else Double.inf (decide (len1 < len2)) := by
  simp only [computeMomentArmFromDefinition, momentArmFromDefinitionWithStep, h1, h2, hlen1,
    hlen2, Double.finite_sub, sub_self, Double.finite_div_zero, sub_eq_zero, sub_neg]

/-- Witness of the amended C3: the prescribed coordinate at `theta = 0` on the path
of length `theta`. -/
theorem computeMomentArmFromDefinition_collapse_witness :
    computeMomentArmFromDefinition (plainModel [prescribedCoordinate] 1) (onePose 0)
        (quadraticPath 0 1 0) prescribedCoordinate =
      if (0 : ℚ) = 0 then Double.nan else Double.inf (decide ((0 : ℚ) < 0)) :=
  computeMomentArmFromDefinition_collapse (plainModel [prescribedCoordinate] 1) (onePose 0)
    (quadraticPath 0 1 0) prescribedCoordinate 0 0 0 rfl rfl
    (by norm_num [plainModel, onePose, quadraticPath, prescribedCoordinate, pendulumCoordinate])
    (by norm_num [plainModel, onePose, quadraticPath, prescribedCoordinate, pendulumCoordinate])

/-! ## The scaling vector of the generalized forces -/

theorem findIndex_gt_iff (arr : List String) (aValue : String) :
    findIndex arr aValue > -1 ↔ aValue ∈ arr := findIndexFrom_gt_iff aValue arr 0

theorem scalesGenForce_iff (coord : Coordinate) (coupledCoords : List String) (ac : Coordinate) :
    scalesGenForce coord coupledCoords ac = true ↔
      (ac.getName = coord.getName ∨ ac.getName ∈ coupledCoords) ∧
        ac.getMotionType ≠ MotionType.Translational ∧ ac.getJointName ≠ "tib_pat_r" := by
  simp [scalesGenForce, findIndex_gt_iff, and_assoc]

theorem genForceScalingStep_length (osimModel : Model) (coord : Coordinate)
    (coupledCoords : List String) (C W : Vector) (ac : Coordinate) :
    (genForceScalingStep osimModel coord coupledCoords C W ac).length = W.length := by
  unfold genForceScalingStep
  split_ifs <;> simp

theorem foldl_genForceScalingStep_length (osimModel : Model) (coord : Coordinate)
    (coupledCoords : List String) (C : Vector) (l : List Coordinate) (W : Vector) :
    (l.foldl (genForceScalingStep osimModel coord coupledCoords C) W).length = W.length := by
  induction l generalizing W with
  | nil => rfl
  | cons ac l ih => rw [List.foldl_cons, ih, genForceScalingStep_length]

theorem elt_genForceScalingStep (osimModel : Model) (coord : Coordinate)
    (coupledCoords : List String) (C W : Vector) (ac : Coordinate) (i : Nat)
    (hi : i < W.length) :
    elt (genForceScalingStep osimModel coord coupledCoords C W ac) i =
      if scalesGenForce coord coupledCoords ac = true ∧ ac.speedIndex osimModel = i then elt C i
      else elt W i := by
  unfold genForceScalingStep
  by_cases h : scalesGenForce coord coupledCoords ac = true
  · simp only [h, if_true, true_and, elt_set _ _ _ _ hi]
    split_ifs with h2
    · rw [h2]
    · rfl
  · simp [h]

/-- An entry of the result of the loop: the entry of `C` when some coordinate of the
list passes the test and has this speed index, the initial entry otherwise. -/
theorem elt_foldl_genForceScalingStep (osimModel : Model) (coord : Coordinate)
    (coupledCoords : List String) (C : Vector) (l : List Coordinate) (W : Vector) (i : Nat)
    (hi : i < W.length) :
    elt (l.foldl (genForceScalingStep osimModel coord coupledCoords C) W) i =
      if ∃ ac ∈ l, scalesGenForce coord coupledCoords ac = true ∧ ac.speedIndex osimModel = i
      then elt C i else elt W i := by
  induction l generalizing W with
  | nil => simp
  | cons ac l ih =>
    rw [List.foldl_cons, ih _ (by rw [genForceScalingStep_length]; exact hi),
      elt_genForceScalingStep _ _ _ _ _ _ _ hi]
    by_cases h1 : ∃ ac ∈ l, scalesGenForce coord coupledCoords ac = true ∧
        ac.speedIndex osimModel = i
    · have h2 : ∃ a ∈ ac :: l, scalesGenForce coord coupledCoords a = true ∧
          a.speedIndex osimModel = i := by
        obtain ⟨a, ha, hp⟩ := h1
        exact ⟨a, List.mem_cons_of_mem _ ha, hp⟩
      rw [if_pos h1, if_pos h2]
    · rw [if_neg h1]
      by_cases h3 : scalesGenForce coord coupledCoords ac = true ∧ ac.speedIndex osimModel = i
      · rw [if_pos h3, if_pos ⟨ac, List.mem_cons_self _ _, h3⟩]
      · rw [if_neg h3, if_neg]
        rintro ⟨a, ha, hp⟩
        rcases List.mem_cons.mp ha with rfl | ha
        · exact h3 hp
        · exact h1 ⟨a, ha, hp⟩

theorem computeGenForceScaling_length (osimModel : Model) (s : State) (coord : Coordinate)
    (coupledCoords : List String) :
    (computeGenForceScaling osimModel s coord coupledCoords).length = osimModel.getNumSpeeds := by
  simp [computeGenForceScaling, foldl_genForceScalingStep_length]

/-- An entry of `W`: the entry of `C` when some coordinate of the model passes the
test of the loop and has this speed index, zero otherwise. -/
theorem elt_computeGenForceScaling (osimModel : Model) (s : State) (coord : Coordinate)
    (coupledCoords : List String) (i : Nat) (hi : i < osimModel.getNumSpeeds) :
    elt (computeGenForceScaling osimModel s coord coupledCoords) i =
      if ∃ ac ∈ osimModel.getCoordinateSet,
        scalesGenForce coord coupledCoords ac = true ∧ ac.speedIndex osimModel = i
      then elt (genForceScalingCoupling osimModel s coord) i else Double.finite 0 := by
  simp only [computeGenForceScaling]
  rw [elt_foldl_genForceScalingStep _ _ _ _ _ _ _ (by simpa using hi), elt_replicate _ _ _ hi]

theorem genForceScalingPose_u (osimModel : Model) (s : State) (coord : Coordinate)
    (hreal : ∀ p g, (osimModel.realize p g).u = p.u) :
    (genForceScalingPose osimModel s coord).u =
      (s.u.map (fun _ => Double.finite 0)).set (coord.speedIndex osimModel) (Double.finite 1) := by
  simp only [genForceScalingPose, hreal, Coordinate.setSpeedValue, State.zeroU]

theorem elt_genForceScalingPose (osimModel : Model) (s : State) (coord : Coordinate)
    (hreal : ∀ p g, (osimModel.realize p g).u = p.u) (i : Nat) (hi : i < s.u.length) :
    elt (genForceScalingPose osimModel s coord).u i =
      if i = coord.speedIndex osimModel then Double.finite 1 else Double.finite 0 := by
  rw [genForceScalingPose_u _ _ _ hreal, elt_set _ _ _ _ (by simpa using hi),
    elt_map_zero _ _ hi]
  by_cases h : i = coord.speedIndex osimModel
  · rw [if_pos h, if_pos h.symm]
  · rw [if_neg h, if_neg (Ne.symm h)]

theorem elt_genForceScalingCoupling (osimModel : Model) (s : State) (coord : Coordinate)
    (i : Nat) :
    elt (genForceScalingCoupling osimModel s coord) i =
      elt (genForceScalingSpeeds osimModel s coord) i /
        elt (genForceScalingSpeeds osimModel s coord) (coord.speedIndex osimModel) := by
  simp only [genForceScalingCoupling, genForceScalingSpeeds, Coordinate.getSpeedValue,
    elt_divScalar]

/-- C4: `computeGenForceScaling` returns a vector `W` with as many entries as the
model has speeds. For every coordinate `ac` of the model whose name is the name of
the coordinate of interest or occurs in `coupledCoords`, that is not translational
and whose joint is not named `tib_pat_r`, the entry of `W` at the speed index of
`ac` (first speed index of its mobilized body plus its mobility index) is the
entry of `C` at that index. Every entry of `W` that no such coordinate assigns
is zero. -/
theorem computeGenForceScaling_entries (osimModel : Model) (s : State) (coord : Coordinate)
    (coupledCoords : List String) :
    (computeGenForceScaling osimModel s coord coupledCoords).length = osimModel.getNumSpeeds ∧
    (∀ ac ∈ osimModel.getCoordinateSet,
      (ac.getName = coord.getName ∨ ac.getName ∈ coupledCoords) →
      ac.getMotionType ≠ MotionType.Translational → ac.getJointName ≠ "tib_pat_r" →
      ac.speedIndex osimModel < osimModel.getNumSpeeds →
      elt (computeGenForceScaling osimModel s coord coupledCoords) (ac.speedIndex osimModel) =
        elt (genForceScalingCoupling osimModel s coord) (ac.speedIndex osimModel)) ∧
    (∀ i, i < osimModel.getNumSpeeds →
      (∀ ac ∈ osimModel.getCoordinateSet,
        (ac.getName = coord.getName ∨ ac.getName ∈ coupledCoords) →
        ac.getMotionType ≠ MotionType.Translational → ac.getJointName ≠ "tib_pat_r" →
        ac.speedIndex osimModel ≠ i) →
      elt (computeGenForceScaling osimModel s coord coupledCoords) i = Double.finite 0) := by
  refine ⟨computeGenForceScaling_length osimModel s coord coupledCoords, ?_, ?_⟩
  · intro ac hac hname hmotion hjoint hidx
    rw [elt_computeGenForceScaling _ _ _ _ _ hidx, if_pos]
    exact ⟨ac, hac, (scalesGenForce_iff _ _ _).mpr ⟨hname, hmotion, hjoint⟩, rfl⟩
  · intro i hi hnone
    rw [elt_computeGenForceScaling _ _ _ _ _ hi, if_neg]
    rintro ⟨ac, hac, hsel, hidx⟩
    obtain ⟨hname, hmotion, hjoint⟩ := (scalesGenForce_iff _ _ _).mp hsel
    exact hnone ac hac hname hmotion hjoint hidx

/-- Witness of C4: in the coupled pair, for `theta1` with coupled set `{theta2}`, `W` has
two entries, and its entry at the speed index of `theta2` is the entry of `C`. -/
theorem computeGenForceScaling_entries_witness :
    (computeGenForceScaling (couplerModel [theta1Hinge, theta2Hinge]) twoPose theta1Hinge
      ["theta2"]).length = 2 ∧
    elt (computeGenForceScaling (couplerModel [theta1Hinge, theta2Hinge]) twoPose theta1Hinge
      ["theta2"]) 1 =
      elt (genForceScalingCoupling (couplerModel [theta1Hinge, theta2Hinge]) twoPose
        theta1Hinge) 1 :=
  ⟨(computeGenForceScaling_entries (couplerModel [theta1Hinge, theta2Hinge]) twoPose
      theta1Hinge ["theta2"]).1,
    (computeGenForceScaling_entries (couplerModel [theta1Hinge, theta2Hinge]) twoPose
      theta1Hinge ["theta2"]).2.1 theta2Hinge (by simp [couplerModel])
      (Or.inr (by simp [theta2Hinge, hingeCoordinate, plainCoordinate]))
      (by decide) (by decide) (by decide)⟩

/-- C5, as stated, fails: for an unconstrained sliding coordinate (no coupled
coordinate, the projection returns the speeds it is handed), `W` is `[0]`, with no
non-zero entry. -/
theorem computeGenForceScaling_unconstrained_translational :
    genForceScalingSpeeds (plainModel [sliderCoordinate] 1) (onePose 0) sliderCoordinate =
      (genForceScalingPose (plainModel [sliderCoordinate] 1) (onePose 0) sliderCoordinate).u ∧
    computeGenForceScaling (plainModel [sliderCoordinate] 1) (onePose 0) sliderCoordinate [] =
      [Double.finite 0] := by
  refine ⟨rfl, ?_⟩
  simp [computeGenForceScaling, genForceScalingStep, scalesGenForce, plainModel,
    sliderCoordinate, plainCoordinate]

/-- C5, amended: for an unconstrained coordinate of the model (no coupled coordinate,
the projection returns the unit speed vector unchanged) that is not translational
and whose joint is not named `tib_pat_r`, `W` has exactly one non-zero entry: it is
`1` at the speed index of the coordinate and `0` everywhere else. -/
theorem computeGenForceScaling_unconstrained (osimModel : Model) (s : State)
    (coord : Coordinate)
    (hmem : coord ∈ osimModel.getCoordinateSet)
    (hmotion : coord.getMotionType ≠ MotionType.Translational)
    (hjoint : coord.getJointName ≠ "tib_pat_r")
    (hreal : ∀ p g, (osimModel.realize p g).u = p.u)
    (hproj : (osimModel.project (genForceScalingPose osimModel s coord)).u =
      (genForceScalingPose osimModel s coord).u)
    (hlen : s.u.length = osimModel.getNumSpeeds)
    (hk : coord.speedIndex osimModel < osimModel.getNumSpeeds) :
    (computeGenForceScaling osimModel s coord []).length = osimModel.getNumSpeeds ∧
    ∀ i, i < osimModel.getNumSpeeds →
      elt (computeGenForceScaling osimModel s coord []) i =
        if i = coord.speedIndex osimModel then Double.finite 1 else Double.finite 0 := by
  have hU : ∀ i, i < osimModel.getNumSpeeds →
      elt (genForceScalingSpeeds osimModel s coord) i =
        if i = coord.speedIndex osimModel then Double.finite 1 else Double.finite 0 := by
    intro i hi
    rw [genForceScalingSpeeds, hproj]
    exact elt_genForceScalingPose _ _ _ hreal i (hlen ▸ hi)
  have hC : ∀ i, i < osimModel.getNumSpeeds →
      elt (genForceScalingCoupling osimModel s coord) i =
        if i = coord.speedIndex osimModel then Double.finite 1 else Double.finite 0 := by
    intro i hi
    rw [elt_genForceScalingCoupling, hU i hi, hU _ hk, if_pos rfl]
    split_ifs <;> norm_num [Double.finite_div]
  refine ⟨computeGenForceScaling_length osimModel s coord [], ?_⟩
  intro i hi
  rw [elt_computeGenForceScaling _ _ _ _ _ hi, hC i hi]
  by_cases h : i = coord.speedIndex osimModel
  · rw [if_pos h, if_pos]
    exact ⟨coord, hmem, (scalesGenForce_iff _ _ _).mpr ⟨Or.inl rfl, hmotion, hjoint⟩, h.symm⟩
  · rw [if_neg h]
    split_ifs <;> rfl

/-- Witness of the amended C5: the first hinge of a model of two uncoupled hinges. -/
theorem computeGenForceScaling_unconstrained_witness :
    (computeGenForceScaling (plainModel [theta1Hinge, theta2Hinge] 2) twoPose theta1Hinge
      []).length = (plainModel [theta1Hinge, theta2Hinge] 2).getNumSpeeds ∧
    ∀ i, i < (plainModel [theta1Hinge, theta2Hinge] 2).getNumSpeeds →
      elt (computeGenForceScaling (plainModel [theta1Hinge, theta2Hinge] 2) twoPose
        theta1Hinge []) i =
        if i = theta1Hinge.speedIndex (plainModel [theta1Hinge, theta2Hinge] 2) then
          Double.finite 1
        else Double.finite 0 :=
  computeGenForceScaling_unconstrained (plainModel [theta1Hinge, theta2Hinge] 2) twoPose
    theta1Hinge (by simp [plainModel]) (by decide) (by decide) (fun _ _ => rfl) rfl rfl
    (by decide)

/-- C6, as stated, fails: two rotational coordinates with `u2 = 2 * u1` after the
projection, the second one on the joint named `tib_pat_r`; for `theta1` with coupled
set `{theta2}` the entry of `W` at the speed index of `theta2` is `0`, not `2`. -/
theorem computeGenForceScaling_coupled_patella :
    elt (genForceScalingSpeeds (couplerModel [theta1Hinge, patellaHinge]) twoPose
      theta1Hinge) 0 = Double.finite 1 ∧
    elt (genForceScalingSpeeds (couplerModel [theta1Hinge, patellaHinge]) twoPose
      theta1Hinge) 1 = Double.finite 2 ∧
    computeGenForceScaling (couplerModel [theta1Hinge, patellaHinge]) twoPose theta1Hinge
      ["theta2"] = [Double.finite 1, Double.finite 0] := by
  refine ⟨?_, ?_, ?_⟩ <;>
  simp [computeGenForceScaling, genForceScalingStep, scalesGenForce, couplerModel,
    theta1Hinge, patellaHinge, hingeCoordinate, plainCoordinate, genForceScalingCoupling,
    genForceScalingSpeeds, genForceScalingPose, Coordinate.speedIndex, elt, Vector.divScalar,
    Coordinate.getSpeedValue, Coordinate.setSpeedValue, State.zeroU, twoPose,
    Double.finite_div, Double.finite_mul, findIndex, findIndexFrom]

/-- C6, amended: for a model with two coordinates `theta1` and `theta2`, where
`theta2` is rotational and its joint is not named `tib_pat_r`, and the projection
returns speeds with `u2 = 2 * u1` and `u1` non-zero, `computeGenForceScaling` for
`theta1` with coupled set `{theta2}` yields the entry `2` at the speed index of
`theta2`. -/
theorem computeGenForceScaling_coupled (osimModel : Model) (s : State)
    (theta1 theta2 : Coordinate) (a : ℚ)
    (hmem : theta2 ∈ osimModel.getCoordinateSet)
    (hmotion : theta2.getMotionType = MotionType.Rotational)
    (hjoint : theta2.getJointName ≠ "tib_pat_r")
    (hk : theta2.speedIndex osimModel < osimModel.getNumSpeeds)
    (ha : a ≠ 0)
    (hu1 : elt (genForceScalingSpeeds osimModel s theta1) (theta1.speedIndex osimModel) =
      Double.finite a)
    (hu2 : elt (genForceScalingSpeeds osimModel s theta1) (theta2.speedIndex osimModel) =
      Double.finite (2 * a)) :
    elt (computeGenForceScaling osimModel s theta1 [theta2.getName])
      (theta2.speedIndex osimModel) = Double.finite 2 := by
  have hsel : scalesGenForce theta1 [theta2.getName] theta2 = true := by
    rw [scalesGenForce_iff, hmotion]
    exact ⟨Or.inr (List.mem_singleton.mpr rfl), by decide, hjoint⟩
  rw [elt_computeGenForceScaling _ _ _ _ _ hk, if_pos ⟨theta2, hmem, hsel, rfl⟩,
    elt_genForceScalingCoupling, hu1, hu2, Double.finite_div _ _ ha]
  congr 1
  field_simp

/-- Witness of the amended C6: the coupled pair of hinges on `pin1` and `pin2`. -/
theorem computeGenForceScaling_coupled_witness :
    elt (computeGenForceScaling (couplerModel [theta1Hinge, theta2Hinge]) twoPose theta1Hinge
        [theta2Hinge.getName])
      (theta2Hinge.speedIndex (couplerModel [theta1Hinge, theta2Hinge])) = Double.finite 2 :=
  computeGenForceScaling_coupled (couplerModel [theta1Hinge, theta2Hinge]) twoPose
    theta1Hinge theta2Hinge 1 (by simp [couplerModel]) rfl (by decide) (by decide) one_ne_zero
    (by simp [genForceScalingSpeeds, genForceScalingPose, couplerModel, theta1Hinge,
      hingeCoordinate, plainCoordinate, Coordinate.speedIndex, Coordinate.setSpeedValue,
      State.zeroU, twoPose, elt])
    (by simp [genForceScalingSpeeds, genForceScalingPose, couplerModel, theta1Hinge,
      theta2Hinge, hingeCoordinate, plainCoordinate, Coordinate.speedIndex,
      Coordinate.setSpeedValue, State.zeroU, twoPose, elt, Double.finite_mul])

/-- C7: in `computeGenForceScaling` the speed vector handed to the projection has the
entries of the pose of the caller, `1` at the speed index of the coordinate of
interest and `0` at every other index (the engine's `realize` leaving the speeds
as they are); `U` is the speed vector after the projection, and the coupling
ratio is `C[i] = U[i] / U[k]` for every index `i`, `k` being the speed index of
the coordinate of interest. -/
theorem computeGenForceScaling_unit_speed_and_ratio (osimModel : Model) (s : State)
    (coord : Coordinate)
    (hreal : ∀ p g, (osimModel.realize p g).u = p.u)
    (hk : coord.speedIndex osimModel < s.u.length) :
    (genForceScalingPose osimModel s coord).u.length = s.u.length ∧
    elt (genForceScalingPose osimModel s coord).u (coord.speedIndex osimModel) =
      Double.finite 1 ∧
    (∀ i, i < s.u.length → i ≠ coord.speedIndex osimModel →
      elt (genForceScalingPose osimModel s coord).u i = Double.finite 0) ∧
    genForceScalingSpeeds osimModel s coord =
      (osimModel.project (genForceScalingPose osimModel s coord)).u ∧
    (∀ i, elt (genForceScalingCoupling osimModel s coord) i =
      elt (genForceScalingSpeeds osimModel s coord) i /
        elt (genForceScalingSpeeds osimModel s coord) (coord.speedIndex osimModel)) := by
  refine ⟨?_, ?_, ?_, rfl, fun i => elt_genForceScalingCoupling _ _ _ i⟩
  · rw [genForceScalingPose_u _ _ _ hreal]
    simp
  · rw [elt_genForceScalingPose _ _ _ hreal _ hk, if_pos rfl]
  · intro i hi hne
    rw [elt_genForceScalingPose _ _ _ hreal _ hi, if_neg hne]

/-- Witness of C7: the second hinge of the coupled pair, whose projection turns the
unit speed of `theta2` into the speeds `[0, 0]`. -/
theorem computeGenForceScaling_unit_speed_and_ratio_witness :
    (genForceScalingPose (couplerModel [theta1Hinge, theta2Hinge]) twoPose
      theta2Hinge).u.length = twoPose.u.length ∧
    elt (genForceScalingPose (couplerModel [theta1Hinge, theta2Hinge]) twoPose theta2Hinge).u
      (theta2Hinge.speedIndex (couplerModel [theta1Hinge, theta2Hinge])) = Double.finite 1 ∧
    (∀ i, i < twoPose.u.length →
      i ≠ theta2Hinge.speedIndex (couplerModel [theta1Hinge, theta2Hinge]) →
      elt (genForceScalingPose (couplerModel [theta1Hinge, theta2Hinge]) twoPose
        theta2Hinge).u i = Double.finite 0) ∧
    genForceScalingSpeeds (couplerModel [theta1Hinge, theta2Hinge]) twoPose theta2Hinge =
      ((couplerModel [theta1Hinge, theta2Hinge]).project
        (genForceScalingPose (couplerModel [theta1Hinge, theta2Hinge]) twoPose theta2Hinge)).u ∧
    (∀ i, elt (genForceScalingCoupling (couplerModel [theta1Hinge, theta2Hinge]) twoPose
        theta2Hinge) i =
      elt (genForceScalingSpeeds (couplerModel [theta1Hinge, theta2Hinge]) twoPose
        theta2Hinge) i /
        elt (genForceScalingSpeeds (couplerModel [theta1Hinge, theta2Hinge]) twoPose
          theta2Hinge)
          (theta2Hinge.speedIndex (couplerModel [theta1Hinge, theta2Hinge]))) :=
  computeGenForceScaling_unit_speed_and_ratio (couplerModel [theta1Hinge, theta2Hinge]) twoPose
    theta2Hinge (fun _ _ => rfl) (by decide)

/-! ## The dynamic-consistency check -/

theorem Double.max_finite (x y : ℚ) :
    Double.max (Double.finite x) (Double.finite y) = Double.finite (Max.max x y) := by
  unfold Double.max
  rw [Double.lt_finite]
  by_cases h : x < y
  · simp [h, max_eq_right (le_of_lt h)]
  · simp [h, max_eq_left (not_lt.mp h)]

theorem ASSERT_EQUAL_finite (e f t : ℚ) :
    ASSERT_EQUAL (Double.finite e) (Double.finite f) (Double.finite t) = Except.ok () ↔
      |f - e| ≤ max t |e * t| := by
  unfold ASSERT_EQUAL
  simp only [Double.finite_mul, Double.abs_finite, Double.max_finite, Double.finite_sub,
    Double.finite_add, Double.lt_finite]
  rw [abs_le]
  generalize max t |e * t| = m
  by_cases h1 : f < e - m
  · rw [if_pos (by simp [h1])]
    constructor
    · intro h; cases h
    · intro h; linarith [h.1]
  · by_cases h2 : e + m < f
    · rw [if_pos (by simp [h2])]
      constructor
      · intro h; cases h
      · intro h; linarith [h.2]
    · rw [if_neg (by simp [h1, h2])]
      constructor
      · intro _
        constructor <;> linarith [not_lt.mp h1, not_lt.mp h2]
      · intro _; rfl

theorem ASSERT_EQUAL_ok_or_error (e f t : Double) :
    ASSERT_EQUAL e f t = Except.ok () ∨ ASSERT_EQUAL e f t = Except.error Exception.exception := by
  unfold ASSERT_EQUAL
  simp only []
  split_ifs
  · right; rfl
  · left; rfl

theorem ASSERT_EQUAL_self (x : ℚ) :
    ASSERT_EQUAL (Double.finite x) (Double.finite x) integ_accuracy = Except.ok () := by
  rw [integ_accuracy, ASSERT_EQUAL_finite, sub_self, abs_zero]
  exact le_max_of_le_left (by norm_num)

theorem dynamicConsistencyVerdict_eq_true (passes : Bool) (tauIVD tauDirect maForce : Double) :
    dynamicConsistencyVerdict passes tauIVD tauDirect maForce = true ↔
      passes = true ∧ ASSERT_EQUAL tauIVD tauDirect integ_accuracy = Except.ok () ∧
        ASSERT_EQUAL tauIVD maForce integ_accuracy = Except.ok () := by
  unfold dynamicConsistencyVerdict dynamicConsistencyAsserts
  rcases ASSERT_EQUAL_ok_or_error tauIVD tauDirect integ_accuracy with h1 | h1 <;>
  rcases ASSERT_EQUAL_ok_or_error tauIVD maForce integ_accuracy with h2 | h2 <;>
  simp [h1, h2, bind, Except.bind]

theorem dot_finite (ws fs : List ℚ) :
    ∃ r : ℚ, dot (ws.map Double.finite) (fs.map Double.finite) = Double.finite r := by
  induction ws generalizing fs with
  | nil => exact ⟨0, by simp [dot]⟩
  | cons w ws ih =>
    cases fs with
    | nil => exact ⟨0, by simp [dot]⟩
    | cons f fs =>
      obtain ⟨r, hr⟩ := ih fs
      exact ⟨w * f + r, by simp [dot, hr, Double.finite_mul, Double.finite_add]⟩

theorem dot_add_finite (ws xs ys : List ℚ) (h : xs.length = ys.length) :
    dot (ws.map Double.finite) (Vector.add (xs.map Double.finite) (ys.map Double.finite)) =
      dot (ws.map Double.finite) (xs.map Double.finite) +
        dot (ws.map Double.finite) (ys.map Double.finite) := by
  induction ws generalizing xs ys with
  | nil => simp [dot, Double.finite_add]
  | cons w ws ih =>
    cases xs with
    | nil =>
      cases ys with
      | nil => simp [dot, Vector.add, Double.finite_add]
      | cons y ys => simp at h
    | cons x xs =>
      cases ys with
      | nil => simp at h
      | cons y ys =>
        have h2 : xs.length = ys.length := by simpa using h
        obtain ⟨r1, hr1⟩ := dot_finite ws xs
        obtain ⟨r2, hr2⟩ := dot_finite ws ys
        simp only [List.map_cons, Vector.add, dot, ih xs ys h2, hr1, hr2, Double.finite_add,
          Double.finite_mul]
        congr 1
        ring

theorem exists_map_finite (v : Vector) (h : ∀ x ∈ v, x.isFinite = true) :
    ∃ qs : List ℚ, v = qs.map Double.finite := by
  induction v with
  | nil => exact ⟨[], rfl⟩
  | cons x xs ih =>
    obtain ⟨qs, hqs⟩ := ih (fun y hy => h y (List.mem_cons_of_mem _ hy))
    have hx := h x (List.mem_cons_self _ _)
    cases x with
    | finite q => exact ⟨q :: qs, by simp [hqs]⟩
    | inf b => simp [Double.isFinite] at hx
    | nan => simp [Double.isFinite] at hx

theorem scenarioModel_W (s : State) (hu : s.u.length = 1) :
    computeGenForceScaling scenarioModel s pendulumCoordinate [] = [Double.finite 1] := by
  obtain ⟨q, u, c, l⟩ := s
  match u, hu with
  | [x], _ =>
    simp [computeGenForceScaling, genForceScalingStep, scalesGenForce, scenarioModel, plainModel,
      pendulumCoordinate, genForceScalingCoupling, genForceScalingPose, Coordinate.speedIndex,
      elt, Vector.divScalar, Coordinate.getSpeedValue, Coordinate.setSpeedValue, State.zeroU,
      Double.finite_div]

theorem scenario_dynamicsSample :
    dynamicsSample scenarioModel scenarioMatter scenarioMuscle pendulumCoordinate []
        (onePose (3 / 10)) =
      { s := onePose (3 / 10), force := Double.finite 100,
        equivalentGenForce := [Double.finite 5],
        constraintMobilityForces := [Double.finite 0], ivdGenForces := [Double.finite 5],
        W := [Double.finite 1] } := by
  have h := scenarioModel_W (onePose (3 / 10)) rfl
  simp only [dynamicsSample, scenarioMatter, constantMatter, scenarioMuscle, constantMuscle]
  simp only [scenarioModel, plainModel] at h ⊢
  simp [h, Stage.rank]

/-- C8: at a sample where the dynamic check runs, the two equivalent torques are the
products `tauDirect = W . equivalentGenForce` and
`tauIVD = W . (ivdGenForces + constraintMobilityForces)`; with finite entries and
the force vectors indexed like `W`, the second one is
`W . ivdGenForces + W . constraintMobilityForces`. -/
theorem dynamicConsistencySample_torques (osimModel : Model) (matter : MatterSubsystem)
    (muscle : Muscle) (coord : Coordinate) (coupledCoordNames : List String) (s : State)
    (ma : Double) (passes : Bool)
    (hW : ∀ x ∈ (dynamicsSample osimModel matter muscle coord coupledCoordNames s).W,
      x.isFinite = true)
    (hivd : ∀ x ∈ (dynamicsSample osimModel matter muscle coord coupledCoordNames s).ivdGenForces,
      x.isFinite = true)
    (hcmf : ∀ x ∈
      (dynamicsSample osimModel matter muscle coord coupledCoordNames s).constraintMobilityForces,
      x.isFinite = true)
    (hlen1 : (dynamicsSample osimModel matter muscle coord coupledCoordNames s).ivdGenForces.length =
      (dynamicsSample osimModel matter muscle coord coupledCoordNames s).W.length)
    (hlen2 : (dynamicsSample osimModel matter muscle coord coupledCoordNames
      s).constraintMobilityForces.length =
      (dynamicsSample osimModel matter muscle coord coupledCoordNames s).W.length) :
    let d := dynamicsSample osimModel matter muscle coord coupledCoordNames s
    let check := dynamicConsistencySample osimModel matter muscle coord coupledCoordNames s ma
      passes
    check.equivalentMuscleTorque = dot d.W d.equivalentGenForce ∧
    check.equivalentIvdMuscleTorque =
      dot d.W (Vector.add d.ivdGenForces d.constraintMobilityForces) ∧
    check.equivalentIvdMuscleTorque =
      dot d.W d.ivdGenForces + dot d.W d.constraintMobilityForces := by
  intro d check
  refine ⟨rfl, rfl, ?_⟩
  obtain ⟨ws, hws⟩ := exists_map_finite _ hW
  obtain ⟨xs, hxs⟩ := exists_map_finite _ hivd
  obtain ⟨ys, hys⟩ := exists_map_finite _ hcmf
  have hlen : xs.length = ys.length := by
    have h1 := hlen1.trans hlen2.symm
    rw [hxs, hys] at h1
    simpa using h1
  show dot d.W (Vector.add d.ivdGenForces d.constraintMobilityForces) = _
  show dot (dynamicsSample osimModel matter muscle coord coupledCoordNames s).W
      (Vector.add (dynamicsSample osimModel matter muscle coord coupledCoordNames s).ivdGenForces
        (dynamicsSample osimModel matter muscle coord coupledCoordNames
          s).constraintMobilityForces) = _
  rw [hws, hxs, hys]
  exact dot_add_finite ws xs ys hlen

/-- Witness of C8: the pendulum scenario at `theta = 0.3`. -/
theorem dynamicConsistencySample_torques_witness :
    (dynamicConsistencySample scenarioModel scenarioMatter scenarioMuscle pendulumCoordinate []
        (onePose (3 / 10)) (Double.finite (1 / 20)) true).equivalentIvdMuscleTorque =
      dot (dynamicsSample scenarioModel scenarioMatter scenarioMuscle pendulumCoordinate []
          (onePose (3 / 10))).W
        (dynamicsSample scenarioModel scenarioMatter scenarioMuscle pendulumCoordinate []
          (onePose (3 / 10))).ivdGenForces +
      dot (dynamicsSample scenarioModel scenarioMatter scenarioMuscle pendulumCoordinate []
          (onePose (3 / 10))).W
        (dynamicsSample scenarioModel scenarioMatter scenarioMuscle pendulumCoordinate []
          (onePose (3 / 10))).constraintMobilityForces :=
  (dynamicConsistencySample_torques scenarioModel scenarioMatter scenarioMuscle
    pendulumCoordinate [] (onePose (3 / 10)) (Double.finite (1 / 20)) true
    (by rw [scenario_dynamicsSample]; simp [Double.isFinite])
    (by rw [scenario_dynamicsSample]; simp [Double.isFinite])
    (by rw [scenario_dynamicsSample]; simp [Double.isFinite])
    (by rw [scenario_dynamicsSample]; rfl)
    (by rw [scenario_dynamicsSample]; rfl)).2.2

/-- C10: for a single-degree-of-freedom model actuated by one muscle of moment arm `r`
and tendon force `f` (no coupled coordinate), at a sample `W` is the unit vector
`[1]`, `momentArm * tendonForce`, `tauDirect` and `tauIVD` are all `r * f`, both
assertions of the dynamic check hold at tolerance `1e-3` and the flag
`passesDynamicConsistency` is left as it was. In the scenario `momentArm = 0.05`,
`tendonForce = 100`, `tauDirect = tauIVD = 5` the check reports consistent. -/
theorem singleDof_dynamic_consistency :
    (∀ (r f : ℚ) (path : GeometryPath) (mass dq : Double) (st : SweepState),
      mass ≠ Double.finite 0 → st.s.u.length = 1 →
      let matter := singleDofMatter (Double.finite r) (Double.finite f)
      let muscle := constantMuscle (Double.finite r) (Double.finite f) path
      let s := muscle.equilibrate
        (muscle.setActivation (pendulumCoordinate.setValue st.s st.q true) (Double.finite (1 / 10)))
      let d := dynamicsSample scenarioModel matter muscle pendulumCoordinate [] s
      let check := dynamicConsistencySample scenarioModel matter muscle pendulumCoordinate [] s
        (muscle.computeMomentArm s pendulumCoordinate) st.passesDynamicConsistency
      d.W = [Double.finite 1] ∧
      muscle.computeMomentArm s pendulumCoordinate * d.force = Double.finite (r * f) ∧
      check.equivalentMuscleTorque = Double.finite (r * f) ∧
      check.equivalentIvdMuscleTorque = Double.finite (r * f) ∧
      ASSERT_EQUAL check.equivalentIvdMuscleTorque check.equivalentMuscleTorque integ_accuracy =
        Except.ok () ∧
      ASSERT_EQUAL check.equivalentIvdMuscleTorque
        (muscle.computeMomentArm s pendulumCoordinate * d.force) integ_accuracy = Except.ok () ∧
      (sweepSample scenarioModel matter muscle pendulumCoordinate [] mass dq
        st).passesDynamicConsistency = st.passesDynamicConsistency) ∧
    dynamicConsistencyVerdict true (Double.finite 5) (Double.finite 5)
      (Double.finite (1 / 20) * Double.finite 100) = true := by
  constructor
  · intro r f path mass dq st hmass hu matter muscle s d check
    have hs : s.u.length = 1 := hu
    have hW : d.W = [Double.finite 1] := scenarioModel_W s hs
    have hd1 : d.equivalentGenForce = [Double.finite (r * f)] := rfl
    have hd2 : d.ivdGenForces = [Double.finite (r * f)] := rfl
    have hd3 : d.constraintMobilityForces = [Double.finite 0] := rfl
    have hforce : muscle.computeMomentArm s pendulumCoordinate * d.force =
        Double.finite (r * f) := rfl
    have h1 : check.equivalentMuscleTorque = Double.finite (r * f) := by
      show dot d.W d.equivalentGenForce = _
      rw [hW, hd1]
      norm_num [dot, Double.finite_mul, Double.finite_add]
    have h2 : check.equivalentIvdMuscleTorque = Double.finite (r * f) := by
      show dot d.W (Vector.add d.ivdGenForces d.constraintMobilityForces) = _
      rw [hW, hd2, hd3]
      norm_num [dot, Vector.add, Double.finite_mul, Double.finite_add]
    have h3 : (sweepSample scenarioModel matter muscle pendulumCoordinate [] mass dq
        st).passesDynamicConsistency =
        dynamicConsistencyVerdict st.passesDynamicConsistency check.equivalentIvdMuscleTorque
          check.equivalentMuscleTorque (muscle.computeMomentArm s pendulumCoordinate * d.force) := by
      simp only [sweepSample, if_pos hmass]
      rfl
    refine ⟨hW, hforce, h1, h2, ?_, ?_, ?_⟩
    · rw [h1, h2]; exact ASSERT_EQUAL_self _
    · rw [h2, hforce]; exact ASSERT_EQUAL_self _
    · rw [h3, h1, h2, hforce]
      simp [dynamicConsistencyVerdict, dynamicConsistencyAsserts, ASSERT_EQUAL_self, bind,
        Except.bind]
  · rw [dynamicConsistencyVerdict_eq_true, Double.finite_mul, integ_accuracy,
      ASSERT_EQUAL_finite, ASSERT_EQUAL_finite]
    refine ⟨rfl, ?_, ?_⟩ <;> norm_num

/-- Witness of C10: the pendulum scenario, `r = 0.05` and `f = 100` at `theta = 0.3`. -/
theorem singleDof_dynamic_consistency_witness :
    (1 / 20 : ℚ) * 100 = 5 ∧
    (dynamicConsistencySample scenarioModel
        (singleDofMatter (Double.finite (1 / 20)) (Double.finite 100)) scenarioMuscle
        pendulumCoordinate [] (onePose (3 / 10)) (Double.finite (1 / 20))
        true).equivalentMuscleTorque = Double.finite (1 / 20 * 100) ∧
    (sweepSample scenarioModel (singleDofMatter (Double.finite (1 / 20)) (Double.finite 100))
      scenarioMuscle pendulumCoordinate [] (Double.finite 1) (Double.finite (1 / 10))
      (sweepStart (3 / 10))).passesDynamicConsistency = true :=
  ⟨by norm_num,
    (singleDof_dynamic_consistency.1 (1 / 20) 100 (quadraticPath 0 (-(1 / 20)) 0)
      (Double.finite 1) (Double.finite (1 / 10)) (sweepStart (3 / 10)) (by simp) rfl).2.2.1,
    (singleDof_dynamic_consistency.1 (1 / 20) 100 (quadraticPath 0 (-(1 / 20)) 0)
      (Double.finite 1) (Double.finite (1 / 10)) (sweepStart (3 / 10)) (by simp)
      rfl).2.2.2.2.2.2⟩

/-! ## The coupled coordinates -/

theorem findIndexFrom_spec (aValue : String) (arr : List String) (i : Nat) :
    (findIndexFrom aValue arr i = -1 ∧ aValue ∉ arr) ∨
      ∃ k, k < arr.length ∧ findIndexFrom aValue arr i = ((i + k : Nat) : Int) ∧
        arr[k]? = some aValue := by
  induction arr generalizing i with
  | nil => left; simp [findIndexFrom]
  | cons x xs ih =>
    unfold findIndexFrom
    split_ifs with h
    · right
      exact ⟨0, by simp, by simp, by simp [h]⟩
    · rcases ih (i + 1) with ⟨h1, h2⟩ | ⟨k, hk, h1, h2⟩
      · left
        refine ⟨h1, ?_⟩
        simp [h2, Ne.symm h]
      · right
        refine ⟨k + 1, by simpa using hk, ?_, by simpa using h2⟩
        rw [h1]
        congr 1
        omega

theorem appendAllBut_eq_append (ind : Int) (l : List String) (j : Nat) (acc : List String) :
    appendAllBut ind l j acc = acc ++ appendAllBut ind l j [] := by
  induction l generalizing j acc with
  | nil => simp [appendAllBut]
  | cons x xs ih =>
    simp only [appendAllBut]
    rw [ih (j + 1) (if (j : Int) ≠ ind then acc ++ [x] else acc),
      ih (j + 1) (if (j : Int) ≠ ind then [] ++ [x] else [])]
    split_ifs <;> simp

theorem mem_appendAllBut_nil (ind : Int) (l : List String) (j : Nat) (n : String) :
    n ∈ appendAllBut ind l j [] ↔ ∃ k, l[k]? = some n ∧ ((j + k : Nat) : Int) ≠ ind := by
  induction l generalizing j with
  | nil => simp [appendAllBut]
  | cons x xs ih =>
    simp only [appendAllBut]
    rw [appendAllBut_eq_append, List.mem_append, ih (j + 1)]
    constructor
    · rintro (h | ⟨k, hk, hne⟩)
      · split_ifs at h with hj
        · simp at h
          exact ⟨0, by simp [h], by simpa using hj⟩
        · simp at h
      · refine ⟨k + 1, by simpa using hk, ?_⟩
        have : j + (k + 1) = j + 1 + k := by omega
        rw [this]
        exact hne
    · rintro ⟨k, hk, hne⟩
      cases k with
      | zero =>
        left
        simp at hk
        have hj : (j : Int) ≠ ind := by simpa using hne
        simp [hj, hk]
      | succ k =>
        right
        refine ⟨k, by simpa using hk, ?_⟩
        have : j + 1 + k = j + (k + 1) := by omega
        rw [this]
        exact hne

/-- What a coupler adds to the array. -/
theorem coupledCoordNamesStep_eq_append (c : String) (acc : List String) (k : Constraint) :
    coupledCoordNamesStep c acc k = acc ++ coupledCoordNamesStep c [] k := by
  unfold coupledCoordNamesStep
  split_ifs
  · simp only []
    split_ifs
    · exact appendAllBut_eq_append _ _ _ _
    · simp
  · simp

theorem mem_foldl_coupledCoordNamesStep (c n : String) (l : List Constraint) (acc : List String) :
    n ∈ l.foldl (coupledCoordNamesStep c) acc ↔
      n ∈ acc ∨ ∃ k ∈ l, n ∈ coupledCoordNamesStep c [] k := by
  induction l generalizing acc with
  | nil => simp
  | cons k l ih =>
    rw [List.foldl_cons, ih, coupledCoordNamesStep_eq_append, List.mem_append]
    simp only [List.mem_cons, exists_eq_or_imp]
    tauto

theorem mem_coupledCoordNamesStep (c n : String) (k : Constraint) :
    n ∈ coupledCoordNamesStep c [] k ↔
      k.getType = "CoordinateCouplerConstraint" ∧
        ∃ ind : Nat, findIndex (k.getIndependentCoordinateNames ++ [k.getDependentCoordinateName]) c =
            (ind : Int) ∧
          (k.getIndependentCoordinateNames ++ [k.getDependentCoordinateName])[ind]? = some c ∧
          ∃ j, (k.getIndependentCoordinateNames ++ [k.getDependentCoordinateName])[j]? = some n ∧
            j ≠ ind := by
  unfold coupledCoordNamesStep
  by_cases ht : k.getType = "CoordinateCouplerConstraint"
  · simp only [ht, if_true, true_and]
    rcases findIndexFrom_spec c (k.getIndependentCoordinateNames ++ [k.getDependentCoordinateName]) 0
      with ⟨h1, _⟩ | ⟨i, _, h1, h2⟩
    · have h1' : findIndex (k.getIndependentCoordinateNames ++ [k.getDependentCoordinateName]) c
          = -1 := h1
      simp only [h1', gt_iff_lt, lt_self_iff_false, if_false, List.not_mem_nil, false_iff]
      rintro ⟨ind, hind, _⟩
      omega
    · have h1' : findIndex (k.getIndependentCoordinateNames ++ [k.getDependentCoordinateName]) c
          = (i : Int) := by simpa using h1
      have hpos : (i : Int) > -1 := by omega
      simp only [h1', hpos, if_true, mem_appendAllBut_nil]
      constructor
      · rintro ⟨j, hj, hne⟩
        refine ⟨i, rfl, h2, j, hj, ?_⟩
        intro h
        apply hne
        simp [h]
      · rintro ⟨ind, hind, _, j, hj, hne⟩
        have : ind = i := by exact_mod_cast hind.symm
        subst this
        refine ⟨j, hj, ?_⟩
        simpa using hne
  · simp [ht]

theorem mem_coupledCoordNames (constraintSet : List Constraint) (c n : String) :
    n ∈ coupledCoordNames constraintSet c ↔
      ∃ k ∈ constraintSet, n ∈ coupledCoordNamesStep c [] k := by
  unfold coupledCoordNames
  rw [mem_foldl_coupledCoordNamesStep]
  simp

theorem two_le_count_of_getElem_some (c : String) (l : List String) (i j : Nat) (hij : i < j)
    (hi : l[i]? = some c) (hj : l[j]? = some c) : 2 ≤ l.count c := by
  induction l generalizing i j with
  | nil => simp at hi
  | cons x xs ih =>
    cases j with
    | zero => omega
    | succ j =>
      have hj' : xs[j]? = some c := by simpa using hj
      cases i with
      | zero =>
        have hx : x = c := by simpa using hi
        subst hx
        have : 1 ≤ xs.count x := List.count_pos_iff.mpr (List.getElem?_mem hj')
        simp only [List.count_cons_self]
        omega
      | succ i =>
        have hi' : xs[i]? = some c := by simpa using hi
        have := ih i j (by omega) hi' hj'
        have h2 := List.count_le_count_cons (a := c) (b := x) (l := xs)
        omega

/-- The array excludes the coordinate of interest when no constraint lists its name
more than once. -/
theorem coupledCoordNames_excludes (constraintSet : List Constraint) (c : String)
    (honce : ∀ k ∈ constraintSet,
      (k.getIndependentCoordinateNames ++ [k.getDependentCoordinateName]).count c ≤ 1) :
    c ∉ coupledCoordNames constraintSet c := by
  intro hc
  obtain ⟨k, hk, hmem⟩ := (mem_coupledCoordNames constraintSet c c).mp hc
  obtain ⟨_, ind, _, h1, j, h2, hne⟩ := (mem_coupledCoordNamesStep c c k).mp hmem
  have := honce k hk
  rcases Nat.lt_or_gt_of_ne hne with h | h
  · have := two_le_count_of_getElem_some c _ j ind h h2 h1
    omega
  · have := two_le_count_of_getElem_some c _ ind j h h1 h2
    omega

/-- C11: for every constraint list and coordinate of interest `c`, a name `n` different
from `c` occurs in `coupledCoordNames` exactly when some constraint of type
`CoordinateCouplerConstraint` lists both `c` and `n` among its independent and
dependent coordinate names; constraints of another type and couplers that do not
list `c` add nothing, so the array is empty when no coupler lists `c`. -/
theorem coupledCoordNames_mem_iff (constraintSet : List Constraint) (c : String) :
    (∀ n, n ≠ c →
      (n ∈ coupledCoordNames constraintSet c ↔
        ∃ k ∈ constraintSet, k.getType = "CoordinateCouplerConstraint" ∧
          c ∈ k.getIndependentCoordinateNames ++ [k.getDependentCoordinateName] ∧
          n ∈ k.getIndependentCoordinateNames ++ [k.getDependentCoordinateName])) ∧
    ((∀ k ∈ constraintSet, k.getType = "CoordinateCouplerConstraint" →
        c ∉ k.getIndependentCoordinateNames ++ [k.getDependentCoordinateName]) →
      coupledCoordNames constraintSet c = []) := by
  constructor
  · intro n hne
    rw [mem_coupledCoordNames]
    constructor
    · rintro ⟨k, hk, hmem⟩
      obtain ⟨ht, ind, _, hc, j, hn, _⟩ := (mem_coupledCoordNamesStep c n k).mp hmem
      exact ⟨k, hk, ht, List.getElem?_mem hc, List.getElem?_mem hn⟩
    · rintro ⟨k, hk, ht, hc, hn⟩
      refine ⟨k, hk, (mem_coupledCoordNamesStep c n k).mpr ⟨ht, ?_⟩⟩
      rcases findIndexFrom_spec c
        (k.getIndependentCoordinateNames ++ [k.getDependentCoordinateName]) 0
        with ⟨_, h2⟩ | ⟨i, _, h1, h2⟩
      · exact absurd hc h2
      · obtain ⟨j, hj⟩ := List.mem_iff_getElem?.mp hn
        refine ⟨i, by simpa using h1, h2, j, hj, ?_⟩
        rintro rfl
        rw [hj] at h2
        exact hne (Option.some.inj h2)
  · intro hnone
    apply List.eq_nil_iff_forall_not_mem.mpr
    intro n hn
    obtain ⟨k, hk, hmem⟩ := (mem_coupledCoordNames constraintSet c n).mp hn
    obtain ⟨ht, ind, _, hc, _⟩ := (mem_coupledCoordNamesStep c n k).mp hmem
    exact hnone k hk ht (List.getElem?_mem hc)

/-- Witness of C11: the coupler of `psi` to `theta` and `phi` makes `phi` a coupled
coordinate of `theta`. -/
theorem coupledCoordNames_mem_iff_witness :
    "phi" ∈ coupledCoordNames [couplerOf "theta" "phi" "psi"] "theta" :=
  ((coupledCoordNames_mem_iff [couplerOf "theta" "phi" "psi"] "theta").1 "phi"
    (by decide)).mpr
    ⟨couplerOf "theta" "phi" "psi", by simp, rfl, by simp [couplerOf], by simp [couplerOf]⟩

/-- C12 at a failing input: a coupler that lists `theta` twice, as an independent and
as the dependent coordinate. Only the position `findIndex` reports is skipped, so
the name `theta` of the coordinate of interest occurs in `coupledCoordNames`. -/
theorem coupledCoordNames_lists_coordinate_twice :
    coupledCoordNames [couplerOf "theta" "phi" "theta"] "theta" = ["phi", "theta"] := by
  decide

/-! ## The sweep and the result of the driver -/

theorem sweepLoop_eq_iterate (body : SweepState → SweepState) (n : Nat) (i : Nat)
    (st : SweepState) : sweepLoop body n i st = body^[n + 1 - i] st := by
  generalize h : n + 1 - i = m
  induction m generalizing i st with
  | zero =>
    rw [sweepLoop, if_neg (by omega)]
    rfl
  | succ m ih =>
    rw [sweepLoop, if_pos (by omega), ih (i + 1) (body st) (by omega)]
    rfl

theorem sweepSample_q (osimModel : Model) (matter : MatterSubsystem) (muscle : Muscle)
    (coord : Coordinate) (names : List String) (mass dq : Double) (st : SweepState) :
    (sweepSample osimModel matter muscle coord names mass dq st).q = st.q + dq := by
  unfold sweepSample
  simp only []
  split_ifs <;> rfl

theorem definitionVerdict_eq (passes : Bool) (ma ma_dldtheta : Double) :
    definitionVerdict passes ma ma_dldtheta =
      (passes && match ASSERT_EQUAL ma ma_dldtheta integ_accuracy with
        | Except.ok _ => true
        | Except.error _ => false) := by
  unfold definitionVerdict
  cases ASSERT_EQUAL ma ma_dldtheta integ_accuracy <;> simp

theorem dynamicConsistencyVerdict_eq (passes : Bool) (tauIVD tauDirect maForce : Double) :
    dynamicConsistencyVerdict passes tauIVD tauDirect maForce =
      (passes && match dynamicConsistencyAsserts tauIVD tauDirect maForce with
        | Except.ok _ => true
        | Except.error _ => false) := by
  unfold dynamicConsistencyVerdict
  cases dynamicConsistencyAsserts tauIVD tauDirect maForce <;> simp

theorem sweepSample_passesDefinition (osimModel : Model) (matter : MatterSubsystem)
    (muscle : Muscle) (coord : Coordinate) (names : List String) (mass dq : Double)
    (st : SweepState) :
    (sweepSample osimModel matter muscle coord names mass dq st).passesDefinition =
      (st.passesDefinition && definitionCheckPasses osimModel muscle coord st) := by
  unfold sweepSample definitionCheckPasses samplePose
  simp only [definitionVerdict_eq]
  split_ifs <;> rfl

theorem sweepSample_passesDynamic (osimModel : Model) (matter : MatterSubsystem)
    (muscle : Muscle) (coord : Coordinate) (names : List String) (mass dq : Double)
    (st : SweepState) :
    (sweepSample osimModel matter muscle coord names mass dq st).passesDynamicConsistency =
      (st.passesDynamicConsistency &&
        (decide (mass = Double.finite 0) ||
          dynamicCheckPasses osimModel matter muscle coord names st)) := by
  unfold sweepSample dynamicCheckPasses samplePose
  by_cases hm : mass = Double.finite 0
  · simp [hm]
  · simp only [ne_eq, hm, not_false_eq_true, if_true, decide_False, Bool.false_or,
      dynamicConsistencySample, dynamicConsistencyVerdict_eq]
    try rfl

theorem iterate_passesDefinition (osimModel : Model) (matter : MatterSubsystem)
    (muscle : Muscle) (coord : Coordinate) (names : List String) (mass dq : Double)
    (n : Nat) (st : SweepState) :
    ((sweepSample osimModel matter muscle coord names mass dq)^[n] st).passesDefinition = true ↔
      st.passesDefinition = true ∧ ∀ i, i < n →
        definitionCheckPasses osimModel muscle coord
          ((sweepSample osimModel matter muscle coord names mass dq)^[i] st) = true := by
  induction n with
  | zero => simp
  | succ n ih =>
    rw [Function.iterate_succ_apply', sweepSample_passesDefinition, Bool.and_eq_true, ih]
    constructor
    · rintro ⟨⟨h0, hall⟩, hn⟩
      refine ⟨h0, fun i hi => ?_⟩
      rcases Nat.lt_succ_iff_lt_or_eq.mp hi with h | h
      · exact hall i h
      · rw [h]; exact hn
    · rintro ⟨h0, hall⟩
      exact ⟨⟨h0, fun i hi => hall i (Nat.lt_succ_of_lt hi)⟩, hall n (Nat.lt_succ_self n)⟩

theorem iterate_passesDynamic (osimModel : Model) (matter : MatterSubsystem)
    (muscle : Muscle) (coord : Coordinate) (names : List String) (mass dq : Double)
    (n : Nat) (st : SweepState) :
    ((sweepSample osimModel matter muscle coord names mass dq)^[n]
        st).passesDynamicConsistency = true ↔
      st.passesDynamicConsistency = true ∧ ∀ i, i < n → mass ≠ Double.finite 0 →
        dynamicCheckPasses osimModel matter muscle coord names
          ((sweepSample osimModel matter muscle coord names mass dq)^[i] st) = true := by
  induction n with
  | zero => simp
  | succ n ih =>
    rw [Function.iterate_succ_apply', sweepSample_passesDynamic, Bool.and_eq_true, ih]
    have key : ∀ b : Bool, (decide (mass = Double.finite 0) || b) = true ↔
        (mass ≠ Double.finite 0 → b = true) := by
      intro b
      by_cases hm : mass = Double.finite 0 <;> simp [hm]
    rw [key]
    constructor
    · rintro ⟨⟨h0, hall⟩, hn⟩
      refine ⟨h0, fun i hi => ?_⟩
      rcases Nat.lt_succ_iff_lt_or_eq.mp hi with h | h
      · exact hall i h
      · rw [h]; exact hn
    · rintro ⟨h0, hall⟩
      exact ⟨⟨h0, fun i hi => hall i (Nat.lt_succ_of_lt hi)⟩, hall n (Nat.lt_succ_self n)⟩

theorem iterate_q (osimModel : Model) (matter : MatterSubsystem)
    (muscle : Muscle) (coord : Coordinate) (names : List String) (mass : Double)
    (lo d : ℚ) (n : Nat) (st : SweepState) (hq : st.q = Double.finite lo) :
    ((sweepSample osimModel matter muscle coord names mass (Double.finite d))^[n] st).q =
      Double.finite (lo + n * d) := by
  induction n with
  | zero => simp [hq]
  | succ n ih =>
    rw [Function.iterate_succ_apply', sweepSample_q, ih, Double.finite_add]
    congr 1
    push_cast
    ring

theorem sweepStep_finite (lo hi : ℚ) :
    sweepStep (Double.finite lo, Double.finite hi) = Double.finite ((hi - lo) / 10) := by
  simp only [sweepStep, nsteps, Double.finite_sub]
  rw [Double.finite_div _ _ (by norm_num)]
  norm_num

/-- The driver once its model, coordinate and muscle are found. -/
theorem testMomentArmDefinitionForModel_eq (loadModel : String → Except Exception OsimModel)
    (filename coordName muscleName : String) (rom : Double × Double) (mass : Double)
    (osimModel : OsimModel) (coord : Coordinate) (muscle : NamedMuscle)
    (hload : loadModel filename = Except.ok osimModel)
    (hcoord : (if coordName ≠ "" then
        getByName Coordinate.getName osimModel.model.getCoordinateSet coordName
      else getFirst osimModel.model.getCoordinateSet) = Except.ok coord)
    (hmuscle : (if muscleName ≠ "" then
        getByName NamedMuscle.getName osimModel.getMuscles muscleName
      else getFirst osimModel.getMuscles) = Except.ok muscle) :
    testMomentArmDefinitionForModel loadModel filename coordName muscleName rom mass =
      Except.ok
        (if ((sweepSample osimModel.model (osimModel.matter (massOverride mass)) muscle.toMuscle
              coord (coupledCoordNames osimModel.getConstraintSet coord.getName) mass
              (sweepStep rom))^[11] (sweepInit osimModel coord muscle rom mass)).passesDefinition
            || ((sweepSample osimModel.model (osimModel.matter (massOverride mass))
              muscle.toMuscle coord (coupledCoordNames osimModel.getConstraintSet coord.getName)
              mass (sweepStep rom))^[11]
              (sweepInit osimModel coord muscle rom mass)).passesDynamicConsistency
          then 0 else 1) := by
  unfold testMomentArmDefinitionForModel
  rw [hload]
  by_cases hc : coordName = "" <;> by_cases hm : muscleName = "" <;>
    simp only [hc, hm, ne_eq, not_true_eq_false, not_false_eq_true, if_true, if_false]
      at hcoord hmuscle <;>
    simp only [bind, Except.bind, hc, hm, ne_eq, not_true_eq_false, not_false_eq_true, if_true,
      if_false, hcoord, hmuscle, sweepLoop_eq_iterate, nsteps] <;>
    rfl

/-- C13: once the model, the coordinate and the muscle are found,
`testMomentArmDefinitionForModel` returns `0` exactly when the definition check
passed at each of the eleven samples or the dynamic check passed at every sample
at which it was run (`mass != 0`), and `1` otherwise; a flag that is false after a
sample never turns true again: a flag true after sample `i + 1` was true after
sample `i`. -/
theorem testMomentArmDefinitionForModel_verdict
    (loadModel : String → Except Exception OsimModel)
    (filename coordName muscleName : String) (rom : Double × Double) (mass : Double)
    (osimModel : OsimModel) (coord : Coordinate) (muscle : NamedMuscle)
    (hload : loadModel filename = Except.ok osimModel)
    (hcoord : (if coordName ≠ "" then
        getByName Coordinate.getName osimModel.model.getCoordinateSet coordName
      else getFirst osimModel.model.getCoordinateSet) = Except.ok coord)
    (hmuscle : (if muscleName ≠ "" then
        getByName NamedMuscle.getName osimModel.getMuscles muscleName
      else getFirst osimModel.getMuscles) = Except.ok muscle) :
    let names := coupledCoordNames osimModel.getConstraintSet coord.getName
    let matter := osimModel.matter (massOverride mass)
    let body := sweepSample osimModel.model matter muscle.toMuscle coord names mass
      (sweepStep rom)
    let start := sweepInit osimModel coord muscle rom mass
    let result := testMomentArmDefinitionForModel loadModel filename coordName muscleName rom
      mass
    (result = Except.ok 0 ↔
      (∀ i, i < 11 →
        definitionCheckPasses osimModel.model muscle.toMuscle coord (body^[i] start) = true) ∨
      (∀ i, i < 11 → mass ≠ Double.finite 0 →
        dynamicCheckPasses osimModel.model matter muscle.toMuscle coord names
          (body^[i] start) = true)) ∧
    (result = Except.ok 0 ∨ result = Except.ok 1) ∧
    (∀ i, (body^[i + 1] start).passesDefinition = true →
      (body^[i] start).passesDefinition = true) ∧
    (∀ i, (body^[i + 1] start).passesDynamicConsistency = true →
      (body^[i] start).passesDynamicConsistency = true) := by
  intro names matter body start result
  have hres := testMomentArmDefinitionForModel_eq loadModel filename coordName muscleName rom
    mass osimModel coord muscle hload hcoord hmuscle
  have hdef := iterate_passesDefinition osimModel.model matter muscle.toMuscle coord names mass
    (sweepStep rom) 11 start
  have hdyn := iterate_passesDynamic osimModel.model matter muscle.toMuscle coord names mass
    (sweepStep rom) 11 start
  have hstart1 : start.passesDefinition = true := rfl
  have hstart2 : start.passesDynamicConsistency = true := rfl
  simp only [hstart1, hstart2, true_and] at hdef hdyn
  refine ⟨?_, ?_, ?_, ?_⟩
  · show testMomentArmDefinitionForModel loadModel filename coordName muscleName rom mass = _ ↔ _
    rw [hres, ← hdef, ← hdyn]
    by_cases h : ((body^[11] start).passesDefinition ||
        (body^[11] start).passesDynamicConsistency) = true
    · rw [if_pos h]
      simpa using h
    · rw [if_neg h]
      simp only [Bool.or_eq_true] at h
      constructor
      · intro h0
        have := Except.ok.inj h0
        omega
      · intro h1
        exact absurd h1 h
  · show testMomentArmDefinitionForModel loadModel filename coordName muscleName rom mass = _ ∨
      testMomentArmDefinitionForModel loadModel filename coordName muscleName rom mass = _
    rw [hres]
    split_ifs
    · left; rfl
    · right; rfl
  · intro i h
    rw [Function.iterate_succ_apply', sweepSample_passesDefinition, Bool.and_eq_true] at h
    exact h.1
  · intro i h
    rw [Function.iterate_succ_apply', sweepSample_passesDynamic, Bool.and_eq_true] at h
    exact h.1

/-- Witness of C13: the pendulum scenario swept over `[0, 1]` with mass `1`. -/
theorem testMomentArmDefinitionForModel_verdict_witness :
    testMomentArmDefinitionForModel scenarioLoad "pendulum.osim" "theta" "muscle"
        (Double.finite 0, Double.finite 1) (Double.finite 1) = Except.ok 0 ∨
      testMomentArmDefinitionForModel scenarioLoad "pendulum.osim" "theta" "muscle"
        (Double.finite 0, Double.finite 1) (Double.finite 1) = Except.ok 1 :=
  (testMomentArmDefinitionForModel_verdict scenarioLoad "pendulum.osim" "theta" "muscle"
    (Double.finite 0, Double.finite 1) (Double.finite 1) scenarioOsimModel pendulumCoordinate
    { getName := "muscle", toMuscle := scenarioMuscle, setDisabled := fun s _ => s }
    rfl rfl rfl).2.1

/-- C14: for every range `rom = [lo, hi]` the loop runs its body `nsteps + 1 = 11`
times, and the coordinate value requested at sample `i` (`i = 0..10`) is
`lo + i * (hi - lo) / 10`: the first is `lo` and the last is `hi`. -/
theorem sweep_samples (osimModel : OsimModel) (coord : Coordinate) (muscle : NamedMuscle)
    (mass : Double) (lo hi : ℚ) :
    let rom := (Double.finite lo, Double.finite hi)
    let body := sweepSample osimModel.model (osimModel.matter (massOverride mass)) muscle.toMuscle
      coord (coupledCoordNames osimModel.getConstraintSet coord.getName) mass (sweepStep rom)
    let start := sweepInit osimModel coord muscle rom mass
    sweepLoop body nsteps 0 start = body^[nsteps + 1] start ∧ nsteps + 1 = 11 ∧
    (∀ i, i ≤ 10 → (body^[i] start).q = Double.finite (lo + i * (hi - lo) / 10)) ∧
    (∀ i, i ≤ 10 → samplePose muscle.toMuscle coord (body^[i] start) =
      muscle.toMuscle.equilibrate (muscle.toMuscle.setActivation
        (coord.setValue (body^[i] start).s (Double.finite (lo + i * (hi - lo) / 10)) true)
        (Double.finite (1 / 10)))) ∧
    (body^[0] start).q = Double.finite lo ∧ (body^[10] start).q = Double.finite hi := by
  intro rom body start
  have hq : ∀ i : Nat, (body^[i] start).q = Double.finite (lo + i * (hi - lo) / 10) := by
    intro i
    show ((sweepSample _ _ _ _ _ _ (sweepStep (Double.finite lo, Double.finite hi)))^[i] _).q = _
    rw [sweepStep_finite, iterate_q _ _ _ _ _ _ lo _ i _ rfl]
    congr 1
    ring
  refine ⟨sweepLoop_eq_iterate _ _ _ _, rfl, fun i _ => hq i, ?_, ?_, ?_⟩
  · intro i _
    unfold samplePose
    rw [hq i]
  · rfl
  · rw [hq 10]
    congr 1
    push_cast
    ring

/-- C15: a tolerance violation at a sample does not leave the sweep: when the
assertion of the definition check throws, the flag `passesDefinition` is false
after the sample and the sweep moves on to the next value; likewise for the
dynamic check; the loop runs all eleven samples whatever the flags, and
`testMomentArmDefinitionForModel` returns a value and raises nothing. -/
theorem sweep_goes_on (loadModel : String → Except Exception OsimModel)
    (filename coordName muscleName : String) (rom : Double × Double) (mass : Double)
    (osimModel : OsimModel) (coord : Coordinate) (muscle : NamedMuscle)
    (hload : loadModel filename = Except.ok osimModel)
    (hcoord : (if coordName ≠ "" then
        getByName Coordinate.getName osimModel.model.getCoordinateSet coordName
      else getFirst osimModel.model.getCoordinateSet) = Except.ok coord)
    (hmuscle : (if muscleName ≠ "" then
        getByName NamedMuscle.getName osimModel.getMuscles muscleName
      else getFirst osimModel.getMuscles) = Except.ok muscle) :
    let names := coupledCoordNames osimModel.getConstraintSet coord.getName
    let matter := osimModel.matter (massOverride mass)
    let body := sweepSample osimModel.model matter muscle.toMuscle coord names mass
      (sweepStep rom)
    let start := sweepInit osimModel coord muscle rom mass
    (∀ st, definitionCheckPasses osimModel.model muscle.toMuscle coord st = false →
      (body st).passesDefinition = false ∧ (body st).q = st.q + sweepStep rom) ∧
    (∀ st, mass ≠ Double.finite 0 →
      dynamicCheckPasses osimModel.model matter muscle.toMuscle coord names st = false →
      (body st).passesDynamicConsistency = false ∧ (body st).q = st.q + sweepStep rom) ∧
    sweepLoop body nsteps 0 start = body^[11] start ∧
    testMomentArmDefinitionForModel loadModel filename coordName muscleName rom mass =
      Except.ok (if (body^[11] start).passesDefinition ||
        (body^[11] start).passesDynamicConsistency then 0 else 1) ∧
    ∀ e, testMomentArmDefinitionForModel loadModel filename coordName muscleName rom mass ≠
      Except.error e := by
  intro names matter body start
  have hres := testMomentArmDefinitionForModel_eq loadModel filename coordName muscleName rom
    mass osimModel coord muscle hload hcoord hmuscle
  refine ⟨?_, ?_, sweepLoop_eq_iterate _ _ _ _, hres, ?_⟩
  · intro st h
    exact ⟨by rw [sweepSample_passesDefinition, h, Bool.and_false], sweepSample_q _ _ _ _ _ _ _ _⟩
  · intro st hm h
    refine ⟨?_, sweepSample_q _ _ _ _ _ _ _ _⟩
    rw [sweepSample_passesDynamic, h]
    simp [hm]
  · intro e h
    rw [hres] at h
    cases h

/-- Witness of C15: the pendulum scenario swept over `[0, 1]` with mass `1` raises
nothing. -/
theorem sweep_goes_on_witness :
    ¬ ∃ e, testMomentArmDefinitionForModel scenarioLoad "pendulum.osim" "theta" "muscle"
      (Double.finite 0, Double.finite 1) (Double.finite 1) = Except.error e :=
  fun h => h.elim fun e he =>
    (sweep_goes_on scenarioLoad "pendulum.osim" "theta" "muscle"
      (Double.finite 0, Double.finite 1) (Double.finite 1) scenarioOsimModel pendulumCoordinate
      { getName := "muscle", toMuscle := scenarioMuscle, setDisabled := fun s _ => s }
      rfl rfl rfl).2.2.2.2 e he

/-! ## The harness -/

theorem main_eq_mapM (loadModel : String → Except Exception OsimModel) :
    main loadModel = (testCases.mapM (runCase loadModel)) >>= fun errs => pure (statusOf errs) := by
  simp only [main, testCases, List.mapM_cons, List.mapM_nil, runCase, bind_assoc, pure_bind,
    statusOf]

theorem mapM_except_error {α β : Type} (f : α → Except Exception β) (l : List α) (k : Nat)
    (hk : k < l.length) (e : Exception)
    (hprev : ∀ j, (hj : j < k) → ∃ r, f (l.get ⟨j, by omega⟩) = Except.ok r)
    (hfail : f (l.get ⟨k, hk⟩) = Except.error e) :
    l.mapM f = Except.error e := by
  induction l generalizing k with
  | nil => simp at hk
  | cons x xs ih =>
    rw [List.mapM_cons]
    cases k with
    | zero =>
      simp only [List.get_eq_getElem, List.getElem_cons_zero] at hfail
      rw [hfail]
      rfl
    | succ k =>
      obtain ⟨r, hr⟩ := hprev 0 (by omega)
      simp only [List.get_eq_getElem, List.getElem_cons_zero] at hr
      rw [hr]
      have := ih k (by simpa using hk)
        (fun j hj => by
          obtain ⟨r, hr⟩ := hprev (j + 1) (by omega)
          exact ⟨r, by simpa using hr⟩)
        (by simpa using hfail)
      show (xs.mapM f >>= fun ys => pure (r :: ys)) = _
      rw [this]
      rfl

theorem getByName_not_found {α : Type} (getName : α → String) (l : List α) (aName : String)
    (h : ∀ x ∈ l, getName x ≠ aName) :
    getByName getName l aName = Except.error (Exception.opensim aName "" (-1)) := by
  induction l with
  | nil => rfl
  | cons x xs ih =>
    rw [getByName, if_neg (h x (List.mem_cons_self _ _))]
    exact ih (fun y hy => h y (List.mem_cons_of_mem _ hy))

/-- C16, as stated, fails: every file loads the pendulum scenario, which has no
coordinate `hip_flexion_r`; the tenth test case would return a result, yet
`main` ends with the exception of the first test case and returns no status. -/
theorem main_stops_at_missing_coordinate :
    scenarioLoad "gait23_PatellaInFemur.osim" = Except.ok scenarioOsimModel ∧
    (∀ c ∈ scenarioOsimModel.model.getCoordinateSet, c.getName ≠ "hip_flexion_r") ∧
    (∃ r, testMomentArmDefinitionForModel scenarioLoad "P2PBallCustomJointMomentArmTest.osim" ""
      "" defaultRom defaultMass = Except.ok r) ∧
    main scenarioLoad = Except.error (Exception.opensim "hip_flexion_r" "" (-1)) ∧
    ∀ stat, main scenarioLoad ≠ Except.ok stat := by
  refine ⟨rfl, ?_, ?_, rfl, ?_⟩
  · simp [scenarioOsimModel, scenarioModel, plainModel, pendulumCoordinate]
  · exact ⟨_, testMomentArmDefinitionForModel_eq scenarioLoad _ "" "" defaultRom defaultMass
      scenarioOsimModel pendulumCoordinate
      { getName := "muscle", toMuscle := scenarioMuscle, setDisabled := fun s _ => s }
      rfl rfl rfl⟩
  · intro stat h
    have h2 : main scenarioLoad = Except.error (Exception.opensim "hip_flexion_r" "" (-1)) := rfl
    rw [h2] at h
    cases h

/-- C16, amended: a lookup of a coordinate or of a muscle that is not in the model
raises out of `testMomentArmDefinitionForModel`, and `main`, which has no handler,
ends with the exception of the first test case that raises: no later case is
run and no status is returned. -/
theorem main_propagates (loadModel : String → Except Exception OsimModel) :
    (∀ (filename coordName muscleName : String) (rom : Double × Double) (mass : Double)
      (osimModel : OsimModel), loadModel filename = Except.ok osimModel → coordName ≠ "" →
      (∀ c ∈ osimModel.model.getCoordinateSet, c.getName ≠ coordName) →
      testMomentArmDefinitionForModel loadModel filename coordName muscleName rom mass =
        Except.error (Exception.opensim coordName "" (-1))) ∧
    (∀ (filename coordName muscleName : String) (rom : Double × Double) (mass : Double)
      (osimModel : OsimModel) (coord : Coordinate), loadModel filename = Except.ok osimModel →
      (if coordName ≠ "" then
        getByName Coordinate.getName osimModel.model.getCoordinateSet coordName
      else getFirst osimModel.model.getCoordinateSet) = Except.ok coord →
      muscleName ≠ "" → (∀ m ∈ osimModel.getMuscles, m.getName ≠ muscleName) →
      testMomentArmDefinitionForModel loadModel filename coordName muscleName rom mass =
        Except.error (Exception.opensim muscleName "" (-1))) ∧
    (∀ (k : Nat) (hk : k < testCases.length) (e : Exception),
      (∀ j, (hj : j < k) → ∃ r, runCase loadModel (testCases.get ⟨j, by omega⟩) = Except.ok r) →
      runCase loadModel (testCases.get ⟨k, hk⟩) = Except.error e →
      main loadModel = Except.error e) := by
  refine ⟨?_, ?_, ?_⟩
  · intro filename coordName muscleName rom mass osimModel hload hne hnone
    unfold testMomentArmDefinitionForModel
    rw [hload]
    simp only [bind, Except.bind, if_pos hne, getByName_not_found _ _ _ hnone]
  · intro filename coordName muscleName rom mass osimModel coord hload hcoord hne hnone
    unfold testMomentArmDefinitionForModel
    rw [hload]
    by_cases hc : coordName = "" <;>
      simp only [hc, ne_eq, not_true_eq_false, not_false_eq_true, if_true, if_false] at hcoord <;>
      simp only [bind, Except.bind, hc, ne_eq, not_true_eq_false, not_false_eq_true, if_true,
        if_false, hcoord, if_pos hne, getByName_not_found _ _ _ hnone]
  · intro k hk e hprev hfail
    rw [main_eq_mapM, mapM_except_error _ _ k hk e hprev hfail]
    rfl

/-- Witness of the amended C16: the pendulum scenario has no coordinate
`hip_flexion_r`, and `main` ends with the exception of its first test case. -/
theorem main_propagates_witness :
    main scenarioLoad = Except.error (Exception.opensim "hip_flexion_r" "" (-1)) :=
  (main_propagates scenarioLoad).2.2 0 (by decide) _ (fun j hj => absurd hj (Nat.not_lt_zero j))
    ((main_propagates scenarioLoad).1 "gait23_PatellaInFemur.osim" "hip_flexion_r" "rect_fem_r"
      (-Pi / Double.finite 3, Pi / Double.finite 3) defaultMass scenarioOsimModel rfl
      (by decide) (by simp [scenarioOsimModel, scenarioModel, plainModel, pendulumCoordinate]))

/-! ## The pose of the caller, the comparison macro and the storage check -/

/-- C17: `computeMomentArmFromDefinition` and `computeGenForceScaling` leave the pose
of the caller as it was: with both poses carried along, every write going to the
copy `s_ma`, the pose `s` at the `return` is the pose passed in, with its
coordinate values, speeds, clamp and lock flags, and the value returned is the
one of the function. -/
theorem helpers_leave_pose (osimModel : Model) (s : State) (path : GeometryPath)
    (coord : Coordinate) (coupledCoords : List String) :
    (computeMomentArmFromDefinitionPoses osimModel s path coord).1.s = s ∧
    (computeMomentArmFromDefinitionPoses osimModel s path coord).2 =
      computeMomentArmFromDefinition osimModel s path coord ∧
    (computeGenForceScalingPoses osimModel s coord coupledCoords).1.s = s ∧
    (computeGenForceScalingPoses osimModel s coord coupledCoords).2 =
      computeGenForceScaling osimModel s coord coupledCoords :=
  ⟨rfl, rfl, rfl, rfl⟩

theorem ASSERT_EQUAL_nan (e t : Double) : ASSERT_EQUAL e Double.nan t = Except.ok () := by
  unfold ASSERT_EQUAL
  have h1 : ∀ d, Double.lt Double.nan d = false := fun d => by cases d <;> rfl
  have h2 : ∀ d, Double.lt d Double.nan = false := fun d => by cases d <;> rfl
  simp only [h1, h2, Bool.or_self, Bool.false_eq_true, if_false]
  rfl

theorem ASSERT_EQUAL_nan_expected (f t : Double) :
    ASSERT_EQUAL Double.nan f t = Except.ok () := by
  unfold ASSERT_EQUAL
  have h1 : ∀ d, Double.lt Double.nan d = false := fun d => by cases d <;> rfl
  have h2 : ∀ d, Double.lt d Double.nan = false := fun d => by cases d <;> rfl
  have h3 : ∀ d : Double, Double.nan - d = Double.nan := fun d => by cases d <;> rfl
  have h4 : ∀ d : Double, Double.nan + d = Double.nan := fun d => by cases d <;> rfl
  simp only [h1, h2, h3, h4, Bool.or_self, Bool.false_eq_true, if_false]
  rfl

theorem ASSERT_EQUAL_inf_expected (b : Bool) (f : Double) (t : ℚ) (ht : t ≠ 0) :
    ASSERT_EQUAL (Double.inf b) f (Double.finite t) = Except.ok () := by
  have hm : Double.inf b * Double.finite t = Double.inf (xor b (decide (t < 0))) := by
    show Double.mul _ _ = _
    simp [Double.mul, ht]
  have htol : Double.max (Double.finite t) (Double.abs (Double.inf b * Double.finite t)) =
      Double.inf false := by
    rw [hm]
    rfl
  unfold ASSERT_EQUAL
  simp only [htol]
  cases b <;> cases f <;> first | rfl | (rename_i c; cases c <;> rfl)

theorem withinCombinedBound_finite (e f t : ℚ) :
    withinCombinedBound (Double.finite e) (Double.finite f) (Double.finite t) =
      decide (|f - e| ≤ max t |e * t|) := by
  simp only [withinCombinedBound, Double.finite_sub, Double.finite_mul, Double.abs_finite,
    Double.max_finite]
  rfl

theorem withinCombinedBound_nan_found (e t : Double) :
    withinCombinedBound e Double.nan t = false := by
  have h3 : ∀ d : Double, Double.nan - d = Double.nan := fun d => by cases d <;> rfl
  have h5 : ∀ d, Double.le Double.nan d = false := fun d => by cases d <;> rfl
  simp only [withinCombinedBound, h3]
  exact h5 _

theorem withinCombinedBound_nan_expected (f t : Double) :
    withinCombinedBound Double.nan f t = false := by
  have h3 : ∀ d : Double, d - Double.nan = Double.nan := fun d => by cases d <;> rfl
  have h5 : ∀ d, Double.le Double.nan d = false := fun d => by cases d <;> rfl
  simp only [withinCombinedBound, h3]
  exact h5 _

/-- C18, as stated, fails: with a setter that leaves the pose as it is the estimate
of the moment arm is NaN; the macro compares the moment arm `0.05` of the solver
with it at the tolerance of the driver and does not throw, so the definition
check keeps its flag, although `|found - expected| <= max(tolerance, |expected *
tolerance|)` is false on these doubles. -/
theorem ASSERT_EQUAL_passes_on_nan :
    computeMomentArmFromDefinition (plainModel [prescribedCoordinate] 1) (onePose 0)
      (quadraticPath 0 1 0) prescribedCoordinate = Double.nan ∧
    ASSERT_EQUAL (Double.finite (1 / 20)) Double.nan integ_accuracy = Except.ok () ∧
    withinCombinedBound (Double.finite (1 / 20)) Double.nan integ_accuracy = false ∧
    definitionVerdict true (Double.finite (1 / 20))
      (computeMomentArmFromDefinition (plainModel [prescribedCoordinate] 1) (onePose 0)
        (quadraticPath 0 1 0) prescribedCoordinate) = true := by
  have h : computeMomentArmFromDefinition (plainModel [prescribedCoordinate] 1) (onePose 0)
      (quadraticPath 0 1 0) prescribedCoordinate = Double.nan := by
    norm_num [computeMomentArmFromDefinition, momentArmFromDefinitionWithStep, plainModel,
      onePose, quadraticPath, prescribedCoordinate, pendulumCoordinate, Double.finite_sub,
      Double.finite_div_zero]
  refine ⟨h, ASSERT_EQUAL_nan _ _, withinCombinedBound_nan_found _ _, ?_⟩
  rw [h, definitionVerdict, ASSERT_EQUAL_nan]

/-- C18, amended: in exact arithmetic on finite doubles the macro
`ASSERT_EQUAL(expected, found, tolerance)` of the driver passes exactly when
`|found - expected| <= max(tolerance, |expected * tolerance|)`, which is then also
what the bound evaluated on doubles says, and throws otherwise; for a tolerance
that is not negative the bound is `tolerance` when `|expected| <= 1` and
`|expected| * tolerance` when `|expected| >= 1`. Outside the finite doubles the
macro is not that test: it never throws when `found` or `expected` is NaN,
although the bound is false there, and it never throws when `expected` is an
infinity and the tolerance is not zero. -/
theorem ASSERT_EQUAL_bound (expected found tolerance : ℚ) :
    (ASSERT_EQUAL (Double.finite expected) (Double.finite found) (Double.finite tolerance) =
        Except.ok () ↔
      |found - expected| ≤ max tolerance |expected * tolerance|) ∧
    (withinCombinedBound (Double.finite expected) (Double.finite found)
        (Double.finite tolerance) = true ↔
      |found - expected| ≤ max tolerance |expected * tolerance|) ∧
    (¬ |found - expected| ≤ max tolerance |expected * tolerance| →
      ASSERT_EQUAL (Double.finite expected) (Double.finite found) (Double.finite tolerance) =
        Except.error Exception.exception) ∧
    (0 ≤ tolerance → |expected| ≤ 1 → max tolerance |expected * tolerance| = tolerance) ∧
    (0 ≤ tolerance → 1 ≤ |expected| →
      max tolerance |expected * tolerance| = |expected| * tolerance) ∧
    (∀ e t : Double, ASSERT_EQUAL e Double.nan t = Except.ok () ∧
      withinCombinedBound e Double.nan t = false) ∧
    (∀ f t : Double, ASSERT_EQUAL Double.nan f t = Except.ok () ∧
      withinCombinedBound Double.nan f t = false) ∧
    (∀ (b : Bool) (f : Double), tolerance ≠ 0 →
      ASSERT_EQUAL (Double.inf b) f (Double.finite tolerance) = Except.ok ()) := by
  refine ⟨ASSERT_EQUAL_finite _ _ _, ?_, ?_, ?_, ?_,
    fun e t => ⟨ASSERT_EQUAL_nan e t, withinCombinedBound_nan_found e t⟩,
    fun f t => ⟨ASSERT_EQUAL_nan_expected f t, withinCombinedBound_nan_expected f t⟩,
    fun b f ht => ASSERT_EQUAL_inf_expected b f tolerance ht⟩
  · rw [withinCombinedBound_finite, decide_eq_true_iff]
  · intro h
    rcases ASSERT_EQUAL_ok_or_error (Double.finite expected) (Double.finite found)
      (Double.finite tolerance) with h1 | h1
    · exact absurd ((ASSERT_EQUAL_finite _ _ _).mp h1) h
    · exact h1
  · intro ht he
    rw [abs_mul, abs_of_nonneg ht]
    exact max_eq_left (by nlinarith [abs_nonneg expected])
  · intro ht he
    rw [abs_mul, abs_of_nonneg ht]
    exact max_eq_right (by nlinarith [abs_nonneg expected])

theorem auxiliary_ASSERT_true (file : String) (line : Int) (message : String) :
    auxiliaryTestFunctions.ASSERT true file line message = Except.ok () := rfl

theorem auxiliary_ASSERT_false (file : String) (line : Int) (message : String) :
    auxiliaryTestFunctions.ASSERT false file line message =
      Except.error (Exception.opensim message file line) := rfl

theorem checkColumns_spec (comparisons tolerances : Vector) (testFile : String)
    (testFileLine : Int) (errorMessage : String) (columns i : Nat) :
    ((∃ j, i ≤ j ∧ j < columns ∧ Double.lt (elt comparisons j) (elt tolerances j) = false) →
      auxiliaryTestFunctions.checkColumns comparisons tolerances testFile testFileLine
        errorMessage columns i = Except.error (Exception.opensim errorMessage testFile testFileLine)) ∧
    ((∀ j, i ≤ j → j < columns → Double.lt (elt comparisons j) (elt tolerances j) = true) →
      auxiliaryTestFunctions.checkColumns comparisons tolerances testFile testFileLine
        errorMessage columns i = Except.ok ()) := by
  generalize h : columns - i = m
  induction m generalizing i with
  | zero =>
    constructor
    · rintro ⟨j, h1, h2, _⟩
      omega
    · intro _
      rw [auxiliaryTestFunctions.checkColumns, if_neg (by omega)]
      rfl
  | succ m ih =>
    have hi : i < columns := by omega
    obtain ⟨ih1, ih2⟩ := ih (i + 1) (by omega)
    rw [auxiliaryTestFunctions.checkColumns, if_pos hi]
    cases hlt : Double.lt (elt comparisons i) (elt tolerances i) with
    | false =>
      constructor
      · intro _
        rfl
      · intro hall
        have := hall i (le_refl i) hi
        rw [hlt] at this
        cases this
    | true =>
      constructor
      · rintro ⟨j, h1, h2, h3⟩
        have hj : i + 1 ≤ j := by
          rcases Nat.eq_or_lt_of_le h1 with h4 | h4
          · subst h4
            rw [hlt] at h3
            cases h3
          · exact h4
        show auxiliaryTestFunctions.checkColumns comparisons tolerances testFile testFileLine
          errorMessage columns (i + 1) = _
        exact ih1 ⟨j, hj, h2, h3⟩
      · intro hall
        show auxiliaryTestFunctions.checkColumns comparisons tolerances testFile testFileLine
          errorMessage columns (i + 1) = _
        exact ih2 (fun j hj hjc => hall j (by omega) hjc)

/-- C19: `CHECK_STORAGE_AGAINST_STANDARD` throws its exception exactly when the RMS
error of at least one compared column is not below the tolerance of that column,
and returns normally exactly when every RMS error is below its tolerance. -/
theorem CHECK_STORAGE_AGAINST_STANDARD_throws_iff {Storage : Type}
    (compareWithStandard : Storage → Storage → List String × Vector)
    (result standard : Storage) (tolerances : Vector) (testFile : String) (testFileLine : Int)
    (errorMessage : String) :
    let columns := (compareWithStandard result standard).1.length
    let comparisons := (compareWithStandard result standard).2
    let outcome := auxiliaryTestFunctions.CHECK_STORAGE_AGAINST_STANDARD compareWithStandard
      result standard tolerances testFile testFileLine errorMessage
    (outcome = Except.error (Exception.opensim errorMessage testFile testFileLine) ↔
      ∃ i, i < columns ∧ Double.lt (elt comparisons i) (elt tolerances i) = false) ∧
    (outcome = Except.ok () ↔
      ∀ i, i < columns → Double.lt (elt comparisons i) (elt tolerances i) = true) ∧
    (outcome = Except.ok () ∨
      outcome = Except.error (Exception.opensim errorMessage testFile testFileLine)) := by
  intro columns comparisons outcome
  obtain ⟨h1, h2⟩ := checkColumns_spec comparisons tolerances testFile testFileLine
    errorMessage columns 0
  have hout : outcome = auxiliaryTestFunctions.checkColumns comparisons tolerances testFile
      testFileLine errorMessage columns 0 := rfl
  by_cases hex : ∃ i, i < columns ∧ Double.lt (elt comparisons i) (elt tolerances i) = false
  · have herr := h1 (by obtain ⟨i, hi, hlt⟩ := hex; exact ⟨i, Nat.zero_le i, hi, hlt⟩)
    rw [← hout] at herr
    refine ⟨⟨fun _ => hex, fun _ => herr⟩, ⟨?_, ?_⟩, Or.inr herr⟩
    · intro hok
      rw [herr] at hok
      cases hok
    · intro hall
      obtain ⟨i, hi, hlt⟩ := hex
      rw [hall i hi] at hlt
      cases hlt
  · have hall : ∀ i, i < columns → Double.lt (elt comparisons i) (elt tolerances i) = true := by
      intro i hi
      cases hlt : Double.lt (elt comparisons i) (elt tolerances i) with
      | true => rfl
      | false => exact absurd ⟨i, hi, hlt⟩ hex
    have hok := h2 (fun j _ hj => hall j hj)
    rw [← hout] at hok
    refine ⟨⟨?_, fun h => absurd h hex⟩, ⟨fun _ => hall, fun _ => hok⟩, Or.inl hok⟩
    intro herr
    rw [hok] at herr
    cases herr

/-- Witness of C19: two columns with RMS errors `0.01` and `2` against tolerances
`0.1` and `1`; the second column is outside its tolerance. -/
theorem CHECK_STORAGE_AGAINST_STANDARD_throws_iff_witness :
    auxiliaryTestFunctions.CHECK_STORAGE_AGAINST_STANDARD plainCompare
        [("time", Double.finite (1 / 100)), ("knee", Double.finite 2)] []
        [Double.finite (1 / 10), Double.finite 1] "testFile.cpp" 12 "failed" =
      Except.error (Exception.opensim "failed" "testFile.cpp" 12) :=
  ((CHECK_STORAGE_AGAINST_STANDARD_throws_iff plainCompare
    [("time", Double.finite (1 / 100)), ("knee", Double.finite 2)] []
    [Double.finite (1 / 10), Double.finite 1] "testFile.cpp" 12 "failed").1).mpr
    ⟨1, by decide, by norm_num [plainCompare, elt, Double.lt_finite]⟩

/-! ## Exactness of the estimate on quadratic paths, and the own entry of `W` -/

/-- C22: in exact arithmetic, on a path whose length is
`a + b * theta + c * theta ^ 2` in the coordinate, with a setter that stores the
requested value as it is and a `realize` that leaves the coordinate alone,
`computeMomentArmFromDefinition` returns exactly `-(b + 2 * c * theta)` at every
`theta`, and so does the same estimate with any non-zero step in place of
`integ_accuracy`: the central difference has no truncation error on quadratics and
the result is the negative of `dL/dtheta`. -/
theorem computeMomentArmFromDefinition_exact_on_quadratics (osimModel : Model) (s : State)
    (path : GeometryPath) (coord : Coordinate) (a b c theta : ℚ)
    (hset : ∀ p v e, coord.getValue (coord.setValue p v e) = v)
    (hreal : ∀ p g, coord.getValue (osimModel.realize p g) = coord.getValue p)
    (hlen : ∀ p x, coord.getValue p = Double.finite x →
      path.getLength p = Double.finite (a + b * x + c * x ^ 2))
    (htheta : coord.getValue s = Double.finite theta) :
    computeMomentArmFromDefinition osimModel s path coord =
      Double.finite (-(b + 2 * c * theta)) ∧
    ∀ d : ℚ, d ≠ 0 →
      momentArmFromDefinitionWithStep (Double.finite d) osimModel s path coord =
        Double.finite (-(b + 2 * c * theta)) :=
  ⟨momentArmFromDefinitionWithStep_quadratic osimModel s path coord a b c theta (1 / 1000)
      hset hreal hlen htheta (by norm_num),
    fun d hd => momentArmFromDefinitionWithStep_quadratic osimModel s path coord a b c theta d
      hset hreal hlen htheta hd⟩

/-- Witness of C22: the pendulum at `theta = 2` on the path of length
`1 + 3 * theta + 5 * theta ^ 2`; the result is `-(3 + 2 * 5 * 2) = -23`. -/
theorem computeMomentArmFromDefinition_exact_on_quadratics_witness :
    computeMomentArmFromDefinition scenarioModel (onePose 2) (quadraticPath 1 3 5)
      pendulumCoordinate = Double.finite (-23) :=
  ((computeMomentArmFromDefinition_exact_on_quadratics scenarioModel (onePose 2)
    (quadraticPath 1 3 5) pendulumCoordinate 1 3 5 2 (fun p v e => rfl) (fun p g => rfl)
    (fun p x hx => by simp only [pendulumCoordinate] at hx; simp only [quadraticPath, hx])
    rfl).1).trans (by norm_num)

/-- C23: when the coordinate of interest belongs to the model, is not translational,
its joint is not named `tib_pat_r`, its speed index is one of the speeds of the model
and its own speed after the projection is a finite non-zero number `a`, the entry
of `W` at its own speed index is exactly `1`, whatever the projection does to the
speeds and whatever `coupledCoords` holds: the entry is `C[k] = a / a`. -/
theorem computeGenForceScaling_own_entry (osimModel : Model) (s : State) (coord : Coordinate)
    (coupledCoords : List String) (a : ℚ)
    (hmem : coord ∈ osimModel.getCoordinateSet)
    (hmotion : coord.getMotionType ≠ MotionType.Translational)
    (hjoint : coord.getJointName ≠ "tib_pat_r")
    (hk : coord.speedIndex osimModel < osimModel.getNumSpeeds)
    (hu : elt (genForceScalingSpeeds osimModel s coord) (coord.speedIndex osimModel) =
      Double.finite a)
    (ha : a ≠ 0) :
    elt (computeGenForceScaling osimModel s coord coupledCoords) (coord.speedIndex osimModel) =
      Double.finite 1 ∧
    elt (genForceScalingCoupling osimModel s coord) (coord.speedIndex osimModel) =
      Double.finite a / Double.finite a := by
  have hC : elt (genForceScalingCoupling osimModel s coord) (coord.speedIndex osimModel) =
      Double.finite a / Double.finite a := by
    rw [elt_genForceScalingCoupling, hu]
  refine ⟨?_, hC⟩
  rw [elt_computeGenForceScaling _ _ _ _ _ hk, if_pos, hC, Double.finite_div _ _ ha, div_self ha]
  exact ⟨coord, hmem, (scalesGenForce_iff _ _ _).mpr ⟨Or.inl rfl, hmotion, hjoint⟩, rfl⟩

/-- Witness of C23: a projection that halves every speed; the own speed of the
pendulum coordinate after the projection is `1/2` and its entry of `W` is `1`. -/
theorem computeGenForceScaling_own_entry_witness :
    elt (genForceScalingSpeeds (halvingModel [pendulumCoordinate]) (onePose 0)
      pendulumCoordinate) 0 = Double.finite (1 / 2) ∧
    elt (computeGenForceScaling (halvingModel [pendulumCoordinate]) (onePose 0)
      pendulumCoordinate []) 0 = Double.finite 1 :=
  ⟨by norm_num [genForceScalingSpeeds, genForceScalingPose, halvingModel, onePose,
      pendulumCoordinate, Coordinate.setSpeedValue, Coordinate.speedIndex, State.zeroU, elt,
      Double.finite_div],
   (computeGenForceScaling_own_entry (halvingModel [pendulumCoordinate]) (onePose 0)
    pendulumCoordinate [] (1 / 2) (by simp [halvingModel]) (by decide) (by decide)
    (by decide)
    (by norm_num [genForceScalingSpeeds, genForceScalingPose, halvingModel, onePose,
      pendulumCoordinate, Coordinate.setSpeedValue, Coordinate.speedIndex, State.zeroU, elt,
      Double.finite_div])
    (by norm_num)).1⟩

/-! ## A coordinate of interest behind the guard -/

theorem foldl_genForceScalingStep_of_not_scales (osimModel : Model) (coord : Coordinate)
    (coupledCoords : List String) (C : Vector) (l : List Coordinate) (W : Vector)
    (h : ∀ ac ∈ l, scalesGenForce coord coupledCoords ac = false) :
    l.foldl (genForceScalingStep osimModel coord coupledCoords C) W = W := by
  induction l generalizing W with
  | nil => rfl
  | cons ac l ih =>
    rw [List.foldl_cons, genForceScalingStep, h ac (List.mem_cons_self _ _)]
    exact ih W (fun x hx => h x (List.mem_cons_of_mem _ hx))

theorem dot_replicate_zero (n : Nat) (fs : List ℚ) :
    dot (List.replicate n (Double.finite 0)) (fs.map Double.finite) = Double.finite 0 := by
  induction n generalizing fs with
  | zero => simp [dot]
  | succ n ih =>
    cases fs with
    | nil => simp [dot, List.replicate_succ]
    | cons f fs =>
      simp [List.replicate_succ, dot, ih fs, Double.finite_mul, Double.finite_add]

theorem add_map_finite (xs ys : List ℚ) :
    Vector.add (xs.map Double.finite) (ys.map Double.finite) =
      (List.zipWith (fun x y => x + y) xs ys).map Double.finite := by
  induction xs generalizing ys with
  | nil => simp [Vector.add]
  | cons x xs ih =>
    cases ys with
    | nil => simp [Vector.add]
    | cons y ys => simp [Vector.add, ih ys, Double.finite_add]

/-- C24: when the coordinate of interest is translational or its joint is named
`tib_pat_r`, it is the only coordinate of the model that bears its name, and
`coupledCoords` is empty, `computeGenForceScaling` returns the vector of zeros at
every pose; at a sample of the dynamic check the two equivalent torques
`tauDirect` and `tauIVD` are then exactly `0`, whatever finite generalized forces
the matter subsystem reports. -/
theorem computeGenForceScaling_guarded_is_zero (osimModel : Model) (s : State)
    (coord : Coordinate)
    (hguard : coord.getMotionType = MotionType.Translational ∨
      coord.getJointName = "tib_pat_r")
    (hname : ∀ ac ∈ osimModel.getCoordinateSet, ac.getName = coord.getName → ac = coord) :
    computeGenForceScaling osimModel s coord [] =
      List.replicate osimModel.getNumSpeeds (Double.finite 0) ∧
    ∀ (matter : MatterSubsystem) (muscle : Muscle) (ma : Double) (passes : Bool),
      (∀ p, ∀ x ∈ matter.calcTreeEquivalentMobilityForces p, x.isFinite = true) →
      (∀ p, ∀ x ∈ matter.calcConstraintForcesFromMultipliers p, x.isFinite = true) →
      (∀ p, ∀ x ∈ matter.calcResidualForceIgnoringConstraints p, x.isFinite = true) →
      (dynamicConsistencySample osimModel matter muscle coord [] s ma
        passes).equivalentMuscleTorque = Double.finite 0 ∧
      (dynamicConsistencySample osimModel matter muscle coord [] s ma
        passes).equivalentIvdMuscleTorque = Double.finite 0 := by
  have hW : ∀ p, computeGenForceScaling osimModel p coord [] =
      List.replicate osimModel.getNumSpeeds (Double.finite 0) := by
    intro p
    unfold computeGenForceScaling
    apply foldl_genForceScalingStep_of_not_scales
    intro ac hac
    cases hsc : scalesGenForce coord [] ac with
    | false => rfl
    | true =>
      obtain ⟨hn, hm, hj⟩ := (scalesGenForce_iff _ _ _).mp hsc
      rcases hn with hn | hn
      · rw [hname ac hac hn] at hm hj
        rcases hguard with hg | hg
        · exact absurd hg hm
        · exact absurd hg hj
      · simp at hn
  refine ⟨hW s, ?_⟩
  intro matter muscle ma passes hegf hcmf hivd
  simp only [dynamicConsistencySample, dynamicsSample, hW, equivalentMuscleTorque,
    equivalentIvdMuscleTorque]
  constructor
  · obtain ⟨fs, hfs⟩ := exists_map_finite _ (hegf (osimModel.realize s Stage.Acceleration))
    rw [hfs, dot_replicate_zero]
  · generalize (if (matter.getSystemStage (osimModel.realize s Stage.Acceleration)).rank <
        Stage.Dynamics.rank then
        osimModel.realize (osimModel.realize s Stage.Acceleration) Stage.Dynamics
      else osimModel.realize s Stage.Acceleration) = p
    obtain ⟨xs, hxs⟩ := exists_map_finite _ (hivd p)
    obtain ⟨ys, hys⟩ := exists_map_finite _ (hcmf p)
    rw [hxs, hys, add_map_finite, dot_replicate_zero]

/-- Witness of C24: a sliding coordinate in a model whose projection couples its two
speeds; `W` is `[0, 0]` and the torque of inverse dynamics is `0`. -/
theorem computeGenForceScaling_guarded_is_zero_witness :
    computeGenForceScaling (couplerModel [sliderCoordinate, theta2Hinge]) twoPose
      sliderCoordinate [] = [Double.finite 0, Double.finite 0] ∧
    (dynamicConsistencySample (couplerModel [sliderCoordinate, theta2Hinge])
      (constantMatter [Double.finite 5, Double.finite 3] [Double.finite 1, Double.finite 1]
        [Double.finite 7, Double.finite 2])
      scenarioMuscle sliderCoordinate [] twoPose (Double.finite (1 / 20))
      true).equivalentIvdMuscleTorque = Double.finite 0 :=
  have h := computeGenForceScaling_guarded_is_zero (couplerModel [sliderCoordinate, theta2Hinge])
    twoPose sliderCoordinate (Or.inl rfl)
    (by
      intro ac hac hn
      simp only [couplerModel, List.mem_cons, List.mem_singleton, List.not_mem_nil,
        or_false] at hac
      rcases hac with rfl | rfl
      · rfl
      · exact absurd hn (by decide))
  ⟨h.1, (h.2 (constantMatter [Double.finite 5, Double.finite 3]
      [Double.finite 1, Double.finite 1] [Double.finite 7, Double.finite 2]) scenarioMuscle
      (Double.finite (1 / 20)) true
      (by intro p x hx; simp only [constantMatter, List.mem_cons, List.mem_singleton,
            List.not_mem_nil, or_false] at hx; rcases hx with rfl | rfl <;> rfl)
      (by intro p x hx; simp only [constantMatter, List.mem_cons, List.mem_singleton,
            List.not_mem_nil, or_false] at hx; rcases hx with rfl | rfl <;> rfl)
      (by intro p x hx; simp only [constantMatter, List.mem_cons, List.mem_singleton,
            List.not_mem_nil, or_false] at hx; rcases hx with rfl | rfl <;> rfl)).2⟩

/-! ## The massless case and the status of the harness -/

theorem definitionCheckPasses_pendulum (coords : List Coordinate) (nu : Nat) (n : String)
    (m : ℚ) (f : Double) (a b x : ℚ) (st : SweepState) (hq : st.q = Double.finite x) :
    definitionCheckPasses (plainModel coords nu)
        (constantMuscle (Double.finite m) f (quadraticPath a b 0)) (namedPendulum n) st =
      decide (|(-b) - m| ≤ max (1 / 1000) |m * (1 / 1000)|) := by
  have h := momentArmFromDefinitionWithStep_quadratic (plainModel coords nu)
    (samplePose (constantMuscle (Double.finite m) f (quadraticPath a b 0)) (namedPendulum n) st)
    (quadraticPath a b 0) (namedPendulum n) a b 0 x (1 / 1000)
    (fun p v e => rfl) (fun p g => rfl)
    (fun p y hy => by
      simp only [namedPendulum, pendulumCoordinate] at hy
      simp only [quadraticPath, hy])
    (by simp [samplePose, constantMuscle, namedPendulum, pendulumCoordinate, hq])
    (by norm_num)
  unfold definitionCheckPasses
  simp only [computeMomentArmFromDefinition, integ_accuracy]
  have hp : (constantMuscle (Double.finite m) f (quadraticPath a b 0)).getGeometryPath =
      quadraticPath a b 0 := rfl
  have hm : ∀ p c, (constantMuscle (Double.finite m) f (quadraticPath a b 0)).computeMomentArm
      p c = Double.finite m := fun _ _ => rfl
  rw [hp, h, hm]
  have hiff := ASSERT_EQUAL_finite m (-(b + 2 * 0 * x)) (1 / 1000)
  have hb : -(b + 2 * 0 * x) = -b := by ring
  rw [hb] at hiff
  rw [hb]
  rcases ASSERT_EQUAL_ok_or_error (Double.finite m) (Double.finite (-b))
    (Double.finite (1 / 1000)) with h1 | h1
  · rw [h1]
    exact (decide_eq_true (hiff.mp h1)).symm
  · rw [h1]
    have : ¬ |(-b) - m| ≤ max (1 / 1000) |m * (1 / 1000)| := by
      intro hle
      rw [hiff.mpr hle] at h1
      cases h1
    exact (decide_eq_false this).symm

theorem definitionCheckPasses_scenarioMuscle (coords : List Coordinate) (nu : Nat) (n : String)
    (st : SweepState) :
    definitionCheckPasses (plainModel coords nu) scenarioMuscle (namedPendulum n) st = true := by
  cases hq : st.q with
  | finite x =>
    rw [scenarioMuscle, definitionCheckPasses_pendulum coords nu n _ _ _ _ x st hq]
    norm_num
  | inf bneg =>
    have h : computeMomentArmFromDefinition (plainModel coords nu)
        (samplePose scenarioMuscle (namedPendulum n) st) scenarioMuscle.getGeometryPath
        (namedPendulum n) = Double.nan := by
      simp only [computeMomentArmFromDefinition, momentArmFromDefinitionWithStep, samplePose,
        scenarioMuscle, constantMuscle, namedPendulum, pendulumCoordinate, plainModel,
        quadraticPath, hq, integ_accuracy, List.headD_cons]
      have e1 : Double.inf bneg - Double.finite (1 / 1000) = Double.inf bneg := rfl
      have e2 : Double.inf bneg + Double.finite (1 / 1000) = Double.inf bneg := rfl
      rw [e1, e2]
      exact nan_div _
    unfold definitionCheckPasses
    simp only [h, ASSERT_EQUAL_nan]
  | nan =>
    have h : computeMomentArmFromDefinition (plainModel coords nu)
        (samplePose scenarioMuscle (namedPendulum n) st) scenarioMuscle.getGeometryPath
        (namedPendulum n) = Double.nan := by
      simp only [computeMomentArmFromDefinition, momentArmFromDefinitionWithStep, samplePose,
        scenarioMuscle, constantMuscle, namedPendulum, pendulumCoordinate, plainModel,
        quadraticPath, hq, integ_accuracy, List.headD_cons]
      rfl
    unfold definitionCheckPasses
    simp only [h, ASSERT_EQUAL_nan]

theorem bind_ok_inv {α β : Type} (x : Except Exception α) (f : α → Except Exception β) (r : β)
    (h : x >>= f = Except.ok r) : ∃ a, x = Except.ok a ∧ f a = Except.ok r := by
  cases x with
  | error e => cases h
  | ok a => exact ⟨a, rfl, h⟩

theorem testMomentArmDefinitionForModel_ok_inv
    (loadModel : String → Except Exception OsimModel)
    (filename coordName muscleName : String) (rom : Double × Double) (mass : Double) (r : Int)
    (h : testMomentArmDefinitionForModel loadModel filename coordName muscleName rom mass =
      Except.ok r) :
    ∃ (osimModel : OsimModel) (coord : Coordinate) (muscle : NamedMuscle),
      loadModel filename = Except.ok osimModel ∧
      (if coordName ≠ "" then
        getByName Coordinate.getName osimModel.model.getCoordinateSet coordName
      else getFirst osimModel.model.getCoordinateSet) = Except.ok coord ∧
      (if muscleName ≠ "" then
        getByName NamedMuscle.getName osimModel.getMuscles muscleName
      else getFirst osimModel.getMuscles) = Except.ok muscle := by
  unfold testMomentArmDefinitionForModel at h
  obtain ⟨osimModel, hl, h⟩ := bind_ok_inv _ _ _ h
  by_cases hcn : coordName = "" <;> by_cases hmn : muscleName = "" <;>
    simp only [hcn, hmn, ne_eq, not_true_eq_false, not_false_eq_true, if_true, if_false]
      at h ⊢ <;>
    (obtain ⟨coord, hc, h⟩ := bind_ok_inv _ _ _ h
     obtain ⟨muscle, hm, h⟩ := bind_ok_inv _ _ _ h
     exact ⟨osimModel, coord, muscle, hl, hc, hm⟩)


theorem sweepSample_massless (osimModel : Model) (matter : MatterSubsystem) (muscle : Muscle)
    (coord : Coordinate) (names : List String) (dq : Double) (st : SweepState) :
    sweepSample osimModel matter muscle coord names (Double.finite 0) dq st =
      { s := samplePose muscle coord st, q := st.q + dq,
        passesDefinition :=
          definitionVerdict st.passesDefinition
            (muscle.computeMomentArm (samplePose muscle coord st) coord)
            (computeMomentArmFromDefinition osimModel (samplePose muscle coord st)
              muscle.getGeometryPath coord),
        passesDynamicConsistency := st.passesDynamicConsistency } := by
  unfold sweepSample samplePose
  simp only [ne_eq, not_true_eq_false, if_false]

theorem massless_sweep_returns_zero
    (loadModel : String → Except Exception OsimModel)
    (filename coordName muscleName : String) (rom : Double × Double)
    (osimModel : OsimModel) (coord : Coordinate) (muscle : NamedMuscle)
    (hload : loadModel filename = Except.ok osimModel)
    (hcoord : (if coordName ≠ "" then
        getByName Coordinate.getName osimModel.model.getCoordinateSet coordName
      else getFirst osimModel.model.getCoordinateSet) = Except.ok coord)
    (hmuscle : (if muscleName ≠ "" then
        getByName NamedMuscle.getName osimModel.getMuscles muscleName
      else getFirst osimModel.getMuscles) = Except.ok muscle) :
    testMomentArmDefinitionForModel loadModel filename coordName muscleName rom
      (Double.finite 0) = Except.ok 0 := by
  rw [testMomentArmDefinitionForModel_eq loadModel filename coordName muscleName rom
    (Double.finite 0) osimModel coord muscle hload hcoord hmuscle]
  have h := (iterate_passesDynamic osimModel.model (osimModel.matter (massOverride
    (Double.finite 0))) muscle.toMuscle coord
    (coupledCoordNames osimModel.getConstraintSet coord.getName) (Double.finite 0)
    (sweepStep rom) 11 (sweepInit osimModel coord muscle rom (Double.finite 0))).mpr
    ⟨rfl, fun i _ hne => absurd rfl hne⟩
  rw [h, Bool.or_true, if_pos rfl]

/-- C25: when `testMomentArmDefinitionForModel` is called with `mass = 0` and returns
a value, that value is `0`. The model, the coordinate and the muscle were found;
at every sample the body of `if(mass!=0)` is skipped: the pose after the sample is
the pose of the definition check and the flag `passesDynamicConsistency` is the
one before the sample, so the flag is true after any number of samples. Nothing
is assumed of the definition check, which may fail at every sample. -/
theorem testMomentArmDefinitionForModel_massless
    (loadModel : String → Except Exception OsimModel)
    (filename coordName muscleName : String) (rom : Double × Double) (r : Int)
    (hret : testMomentArmDefinitionForModel loadModel filename coordName muscleName rom
      (Double.finite 0) = Except.ok r) :
    r = 0 ∧
    ∃ (osimModel : OsimModel) (coord : Coordinate) (muscle : NamedMuscle),
      loadModel filename = Except.ok osimModel ∧
      (if coordName ≠ "" then
        getByName Coordinate.getName osimModel.model.getCoordinateSet coordName
      else getFirst osimModel.model.getCoordinateSet) = Except.ok coord ∧
      (if muscleName ≠ "" then
        getByName NamedMuscle.getName osimModel.getMuscles muscleName
      else getFirst osimModel.getMuscles) = Except.ok muscle ∧
      let body := sweepSample osimModel.model (osimModel.matter (massOverride (Double.finite 0)))
        muscle.toMuscle coord (coupledCoordNames osimModel.getConstraintSet coord.getName)
        (Double.finite 0) (sweepStep rom)
      let start := sweepInit osimModel coord muscle rom (Double.finite 0)
      (∀ st, (body st).passesDynamicConsistency = st.passesDynamicConsistency ∧
        (body st).s = samplePose muscle.toMuscle coord st) ∧
      ∀ i, (body^[i] start).passesDynamicConsistency = true := by
  obtain ⟨osimModel, coord, muscle, hload, hcoord, hmuscle⟩ :=
    testMomentArmDefinitionForModel_ok_inv _ _ _ _ _ _ _ hret
  have h0 := massless_sweep_returns_zero loadModel filename coordName muscleName
    rom osimModel coord muscle hload hcoord hmuscle
  rw [h0] at hret
  refine ⟨(Except.ok.inj hret).symm, osimModel, coord, muscle, hload, hcoord, hmuscle, ?_⟩
  intro body start
  refine ⟨fun st => ?_, fun i => ?_⟩
  · show (sweepSample _ _ _ _ _ _ _ st).passesDynamicConsistency = _ ∧
      (sweepSample _ _ _ _ _ _ _ st).s = _
    rw [sweepSample_massless]
    exact ⟨rfl, rfl⟩
  · exact (iterate_passesDynamic _ _ _ _ _ _ _ i _).mpr ⟨rfl, fun _ _ hne => absurd rfl hne⟩

/-- Witness of C25: the wrist case of `main` on a model whose solver reports the
moment arm `1` where the definition gives `0.05`. The definition check fails at
each of the eleven samples, and the result is `0`. -/
theorem testMomentArmDefinitionForModel_massless_witness :
    (∀ i, i < 11 →
      definitionCheckPasses (batteryOsimModel inconsistentMuscle inconsistentMatter).model
        inconsistentMuscle (namedPendulum "flexion")
        ((sweepSample (batteryOsimModel inconsistentMuscle inconsistentMatter).model
          inconsistentMatter inconsistentMuscle (namedPendulum "flexion") [] (Double.finite 0)
          (sweepStep (Double.finite 0, Double.finite 1)))^[i]
          (sweepInit (batteryOsimModel inconsistentMuscle inconsistentMatter)
            (namedPendulum "flexion")
            { getName := "ECU_post-surgery", toMuscle := inconsistentMuscle,
              setDisabled := fun s _ => s }
            (Double.finite 0, Double.finite 1) (Double.finite 0))) = false) ∧
    testMomentArmDefinitionForModel inconsistentLoad "wrist_mass.osim" "flexion"
      "ECU_post-surgery" (Double.finite 0, Double.finite 1) (Double.finite 0) = Except.ok 0 :=
  ⟨fun i _ => by
      rw [sweepStep_finite]
      have hq := iterate_q (batteryOsimModel inconsistentMuscle inconsistentMatter).model
        inconsistentMatter inconsistentMuscle (namedPendulum "flexion") [] (Double.finite 0)
        0 ((1 - 0) / 10) i
        (sweepInit (batteryOsimModel inconsistentMuscle inconsistentMatter)
          (namedPendulum "flexion")
          { getName := "ECU_post-surgery", toMuscle := inconsistentMuscle,
            setDisabled := fun s _ => s }
          (Double.finite 0, Double.finite 1) (Double.finite 0)) rfl
      have h := definitionCheckPasses_pendulum
        [namedPendulum "hip_flexion_r", namedPendulum "knee_angle_r", namedPendulum "flexion"] 1
        "flexion" 1 (Double.finite 100) 0 (-(1 / 20)) _ _ hq
      refine Eq.trans h ?_
      norm_num [abs_of_pos],
    (testMomentArmDefinitionForModel_eq inconsistentLoad "wrist_mass.osim" "flexion"
      "ECU_post-surgery" (Double.finite 0, Double.finite 1) (Double.finite 0)
      (batteryOsimModel inconsistentMuscle inconsistentMatter) (namedPendulum "flexion")
      { getName := "ECU_post-surgery", toMuscle := inconsistentMuscle,
        setDisabled := fun s _ => s } rfl rfl rfl).trans
      (congrArg Except.ok
        (testMomentArmDefinitionForModel_massless inconsistentLoad "wrist_mass.osim" "flexion"
          "ECU_post-surgery" (Double.finite 0, Double.finite 1) _
          (testMomentArmDefinitionForModel_eq inconsistentLoad "wrist_mass.osim" "flexion"
            "ECU_post-surgery" (Double.finite 0, Double.finite 1) (Double.finite 0)
            (batteryOsimModel inconsistentMuscle inconsistentMatter) (namedPendulum "flexion")
            { getName := "ECU_post-surgery", toMuscle := inconsistentMuscle,
              setDisabled := fun s _ => s } rfl rfl rfl)).1)⟩


theorem batteryModel_W (s : State) (hu : s.u.length = 1) :
    computeGenForceScaling
      (plainModel
        [namedPendulum "hip_flexion_r", namedPendulum "knee_angle_r", namedPendulum "flexion"] 1)
      s (namedPendulum "hip_flexion_r") [] = [Double.finite 1] := by
  obtain ⟨q, u, c, l⟩ := s
  match u, hu with
  | [x], _ =>
    simp [computeGenForceScaling, genForceScalingStep, scalesGenForce, plainModel,
      namedPendulum, pendulumCoordinate, genForceScalingCoupling, genForceScalingPose,
      Coordinate.speedIndex, elt, Vector.divScalar, Coordinate.getSpeedValue,
      Coordinate.setSpeedValue, State.zeroU, Double.finite_div, findIndex, findIndexFrom]

theorem defaultRom_fst :
    defaultRom.1 = Double.finite (-(7074237752028440 / 2251799813685248) / 2) := by
  show Double.finite (-(7074237752028440 / 2251799813685248)) / Double.finite 2 = _
  rw [Double.finite_div _ _ (by norm_num)]

theorem batteryLoad_consistent (filename coordName muscleName : String) (rom : Double × Double)
    (mass : Double) (n : String) (muscle : NamedMuscle)
    (hf : filename ≠ "P2PBallJointMomentArmTest.osim")
    (hcoord : (if coordName ≠ "" then
        getByName Coordinate.getName
          (batteryOsimModel scenarioMuscle scenarioMatter).model.getCoordinateSet coordName
      else getFirst (batteryOsimModel scenarioMuscle scenarioMatter).model.getCoordinateSet) =
        Except.ok (namedPendulum n))
    (hmuscle : (if muscleName ≠ "" then
        getByName NamedMuscle.getName (batteryOsimModel scenarioMuscle scenarioMatter).getMuscles
          muscleName
      else getFirst (batteryOsimModel scenarioMuscle scenarioMatter).getMuscles) =
        Except.ok muscle)
    (hm : muscle.toMuscle = scenarioMuscle) :
    testMomentArmDefinitionForModel batteryLoad filename coordName muscleName rom mass =
      Except.ok 0 := by
  have hload : batteryLoad filename =
      Except.ok (batteryOsimModel scenarioMuscle scenarioMatter) := by
    simp only [batteryLoad, if_neg hf]
    rfl
  rw [testMomentArmDefinitionForModel_eq batteryLoad filename coordName muscleName rom mass _ _ _
    hload hcoord hmuscle]
  have h := (iterate_passesDefinition (batteryOsimModel scenarioMuscle scenarioMatter).model
    ((batteryOsimModel scenarioMuscle scenarioMatter).matter (massOverride mass))
    muscle.toMuscle (namedPendulum n)
    (coupledCoordNames (batteryOsimModel scenarioMuscle scenarioMatter).getConstraintSet
      (namedPendulum n).getName) mass (sweepStep rom) 11
    (sweepInit (batteryOsimModel scenarioMuscle scenarioMatter) (namedPendulum n) muscle rom
      mass)).mpr
    ⟨rfl, fun i _ => by rw [hm]; exact definitionCheckPasses_scenarioMuscle _ _ _ _⟩
  rw [h, Bool.true_or, if_pos rfl]

theorem batteryLoad_inconsistent :
    testMomentArmDefinitionForModel batteryLoad "P2PBallJointMomentArmTest.osim" "" ""
      defaultRom defaultMass = Except.ok 1 := by
  rw [testMomentArmDefinitionForModel_eq batteryLoad "P2PBallJointMomentArmTest.osim" "" ""
    defaultRom defaultMass (batteryOsimModel inconsistentMuscle inconsistentMatter)
    (namedPendulum "hip_flexion_r")
    { getName := "rect_fem_r", toMuscle := inconsistentMuscle, setDisabled := fun s _ => s }
    rfl rfl rfl]
  have hne : defaultMass ≠ Double.finite 0 := by decide
  have hdef : definitionCheckPasses (batteryOsimModel inconsistentMuscle inconsistentMatter).model
      inconsistentMuscle (namedPendulum "hip_flexion_r")
      (sweepInit (batteryOsimModel inconsistentMuscle inconsistentMatter)
        (namedPendulum "hip_flexion_r")
        { getName := "rect_fem_r", toMuscle := inconsistentMuscle, setDisabled := fun s _ => s }
        defaultRom defaultMass) = false := by
    refine Eq.trans (definitionCheckPasses_pendulum
      [namedPendulum "hip_flexion_r", namedPendulum "knee_angle_r", namedPendulum "flexion"] 1
      "hip_flexion_r" 1 (Double.finite 100) 0 (-(1 / 20)) _ _ defaultRom_fst) ?_
    norm_num [abs_of_pos]
  have hdyn : dynamicCheckPasses (batteryOsimModel inconsistentMuscle inconsistentMatter).model
      inconsistentMatter inconsistentMuscle (namedPendulum "hip_flexion_r") []
      (sweepInit (batteryOsimModel inconsistentMuscle inconsistentMatter)
        (namedPendulum "hip_flexion_r")
        { getName := "rect_fem_r", toMuscle := inconsistentMuscle, setDisabled := fun s _ => s }
        defaultRom defaultMass) = false := by
    have hW := batteryModel_W
      (samplePose inconsistentMuscle (namedPendulum "hip_flexion_r")
        (sweepInit (batteryOsimModel inconsistentMuscle inconsistentMatter)
          (namedPendulum "hip_flexion_r")
          { getName := "rect_fem_r", toMuscle := inconsistentMuscle,
            setDisabled := fun s _ => s }
          defaultRom defaultMass)) rfl
    have hasrt : ASSERT_EQUAL (Double.finite 7) (Double.finite 5) integ_accuracy =
        Except.error Exception.exception := by
      rcases ASSERT_EQUAL_ok_or_error (Double.finite 7) (Double.finite 5) integ_accuracy with
        h | h
      · rw [integ_accuracy, ASSERT_EQUAL_finite] at h
        norm_num [abs_of_pos] at h
      · exact h
    unfold dynamicCheckPasses
    simp only [dynamicsSample]
    have hreal : ∀ p g, (batteryOsimModel inconsistentMuscle inconsistentMatter).model.realize
        p g = p := fun _ _ => rfl
    simp only [hreal, ite_self]
    have hW2 : computeGenForceScaling
        (batteryOsimModel inconsistentMuscle inconsistentMatter).model
        (samplePose inconsistentMuscle (namedPendulum "hip_flexion_r")
          (sweepInit (batteryOsimModel inconsistentMuscle inconsistentMatter)
            (namedPendulum "hip_flexion_r")
            { getName := "rect_fem_r", toMuscle := inconsistentMuscle,
              setDisabled := fun s _ => s }
            defaultRom defaultMass)) (namedPendulum "hip_flexion_r") [] =
        [Double.finite 1] := hW
    rw [hW2]
    have h7 : equivalentIvdMuscleTorque [Double.finite 1] [Double.finite 7] [Double.finite 0] =
        Double.finite 7 := by
      norm_num [equivalentIvdMuscleTorque, dot, Vector.add, Double.finite_add,
        Double.finite_mul]
    have h5 : equivalentMuscleTorque [Double.finite 1] [Double.finite 5] = Double.finite 5 := by
      norm_num [equivalentMuscleTorque, dot, Double.finite_add, Double.finite_mul]
    simp only [inconsistentMatter, constantMatter, h7, h5, dynamicConsistencyAsserts, hasrt]
    rfl
  have hfalse1 : ((sweepSample (batteryOsimModel inconsistentMuscle inconsistentMatter).model
      ((batteryOsimModel inconsistentMuscle inconsistentMatter).matter (massOverride defaultMass))
      inconsistentMuscle (namedPendulum "hip_flexion_r")
      (coupledCoordNames (batteryOsimModel inconsistentMuscle
        inconsistentMatter).getConstraintSet (namedPendulum "hip_flexion_r").getName) defaultMass
      (sweepStep defaultRom))^[11]
      (sweepInit (batteryOsimModel inconsistentMuscle inconsistentMatter)
        (namedPendulum "hip_flexion_r")
        { getName := "rect_fem_r", toMuscle := inconsistentMuscle, setDisabled := fun s _ => s }
        defaultRom defaultMass)).passesDefinition = false := by
    rw [← Bool.not_eq_true]
    intro h
    have h0 := ((iterate_passesDefinition _ _ _ _ _ _ _ 11 _).mp h).2 0 (by norm_num)
    exact Bool.false_ne_true (hdef.symm.trans h0)
  have hfalse2 : ((sweepSample (batteryOsimModel inconsistentMuscle inconsistentMatter).model
      ((batteryOsimModel inconsistentMuscle inconsistentMatter).matter (massOverride defaultMass))
      inconsistentMuscle (namedPendulum "hip_flexion_r")
      (coupledCoordNames (batteryOsimModel inconsistentMuscle
        inconsistentMatter).getConstraintSet (namedPendulum "hip_flexion_r").getName) defaultMass
      (sweepStep defaultRom))^[11]
      (sweepInit (batteryOsimModel inconsistentMuscle inconsistentMatter)
        (namedPendulum "hip_flexion_r")
        { getName := "rect_fem_r", toMuscle := inconsistentMuscle, setDisabled := fun s _ => s }
        defaultRom defaultMass)).passesDynamicConsistency = false := by
    rw [← Bool.not_eq_true]
    intro h
    have h0 := ((iterate_passesDynamic _ _ _ _ _ _ _ 11 _).mp h).2 0 (by norm_num) hne
    exact Bool.false_ne_true (hdyn.symm.trans h0)
  rw [hfalse1, hfalse2]
  rfl

theorem mapM_except_ok {α β : Type} (f : α → Except Exception β) (l : List α) (rs : List β)
    (h : List.Forall₂ (fun c r => f c = Except.ok r) l rs) : l.mapM f = Except.ok rs := by
  induction h with
  | nil => rfl
  | cons h1 _ ih =>
    rw [List.mapM_cons, h1]
    show (List.mapM f _ >>= fun ys => pure (_ :: ys)) = _
    rw [ih]
    rfl

theorem testMomentArmDefinitionForModel_zero_or_one
    (loadModel : String → Except Exception OsimModel)
    (filename coordName muscleName : String) (rom : Double × Double) (mass : Double) (r : Int)
    (h : testMomentArmDefinitionForModel loadModel filename coordName muscleName rom mass =
      Except.ok r) : 0 ≤ r ∧ r ≤ 1 := by
  obtain ⟨osimModel, coord, muscle, hload, hcoord, hmuscle⟩ :=
    testMomentArmDefinitionForModel_ok_inv _ _ _ _ _ _ _ h
  rw [testMomentArmDefinitionForModel_eq loadModel filename coordName muscleName rom mass
    osimModel coord muscle hload hcoord hmuscle] at h
  have h2 := Except.ok.inj h
  split_ifs at h2 <;> omega

theorem statusOf_bounds (loadModel : String → Except Exception OsimModel)
    (cs : List (String × String × String × (Double × Double) × Double)) (rs : List Int)
    (h : List.Forall₂ (fun c r => runCase loadModel c = Except.ok r) cs rs) :
    ∀ r ∈ rs, 0 ≤ r ∧ r ≤ 1 := by
  induction h with
  | nil => simp
  | cons h1 _ ih =>
    intro r hr
    rcases List.mem_cons.mp hr with rfl | hr
    · exact testMomentArmDefinitionForModel_zero_or_one _ _ _ _ _ _ _ h1
    · exact ih r hr

/-- C26: when each of the fifteen test cases of `main` returns a result, `main`
returns the sum of fourteen of them, all but the ninth, which is the case of the
file `P2PBallJointMomentArmTest.osim`; every result is `0` or `1`, so the status
lies between `0` and `14`; and the status is `0` when every case but the ninth
returns `0`, whatever the ninth returns. -/
theorem main_status (loadModel : String → Except Exception OsimModel) (rs : List Int)
    (hrun : List.Forall₂ (fun c r => runCase loadModel c = Except.ok r) testCases rs) :
    rs.length = 15 ∧ (∀ r ∈ rs, r = 0 ∨ r = 1) ∧
    (testCases.map Prod.fst)[8]? = some "P2PBallJointMomentArmTest.osim" ∧
    main loadModel = Except.ok (rs.eraseIdx 8).sum ∧
    0 ≤ (rs.eraseIdx 8).sum ∧ (rs.eraseIdx 8).sum ≤ 14 ∧
    ((∀ i, i ≠ 8 → rs.getD i 0 = 0) → main loadModel = Except.ok 0) := by
  have hb := statusOf_bounds loadModel testCases rs hrun
  have hmain : main loadModel = Except.ok (statusOf rs) := by
    rw [main_eq_mapM, mapM_except_ok _ _ _ hrun]
    rfl
  have hlen : rs.length = 15 := hrun.length_eq.symm
  match rs, hlen with
  | [e1, e2, e3, e4, e5, e6, e7, e8, e9, e10, e11, e12, e13, e14, e15], _ =>
    have hsum : statusOf [e1, e2, e3, e4, e5, e6, e7, e8, e9, e10, e11, e12, e13, e14, e15] =
        ([e1, e2, e3, e4, e5, e6, e7, e8, e9, e10, e11, e12, e13, e14, e15].eraseIdx 8).sum := by
      simp only [statusOf, List.eraseIdx, List.sum_cons, List.sum_nil]
      ring
    have b1 := hb e1 (by simp)
    have b2 := hb e2 (by simp)
    have b3 := hb e3 (by simp)
    have b4 := hb e4 (by simp)
    have b5 := hb e5 (by simp)
    have b6 := hb e6 (by simp)
    have b7 := hb e7 (by simp)
    have b8 := hb e8 (by simp)
    have b10 := hb e10 (by simp)
    have b11 := hb e11 (by simp)
    have b12 := hb e12 (by simp)
    have b13 := hb e13 (by simp)
    have b14 := hb e14 (by simp)
    have b15 := hb e15 (by simp)
    have hval : ([e1, e2, e3, e4, e5, e6, e7, e8, e9, e10, e11, e12, e13, e14, e15].eraseIdx
        8).sum = e1 + e2 + e3 + e4 + e5 + e6 + e7 + e8 + e10 + e11 + e12 + e13 + e14 + e15 := by
      simp only [List.eraseIdx, List.sum_cons, List.sum_nil]
      ring
    refine ⟨rfl, ?_, rfl, ?_, ?_, ?_, ?_⟩
    · intro r hr
      have := hb r hr
      omega
    · rw [hmain, hsum]
    · rw [hval]; omega
    · rw [hval]; omega
    · intro hz
      rw [hmain, hsum, hval]
      have z1 : e1 = 0 := hz 0 (by decide)
      have z2 : e2 = 0 := hz 1 (by decide)
      have z3 : e3 = 0 := hz 2 (by decide)
      have z4 : e4 = 0 := hz 3 (by decide)
      have z5 : e5 = 0 := hz 4 (by decide)
      have z6 : e6 = 0 := hz 5 (by decide)
      have z7 : e7 = 0 := hz 6 (by decide)
      have z8 : e8 = 0 := hz 7 (by decide)
      have z10 : e10 = 0 := hz 9 (by decide)
      have z11 : e11 = 0 := hz 10 (by decide)
      have z12 : e12 = 0 := hz 11 (by decide)
      have z13 : e13 = 0 := hz 12 (by decide)
      have z14 : e14 = 0 := hz 13 (by decide)
      have z15 : e15 = 0 := hz 14 (by decide)
      rw [z1, z2, z3, z4, z5, z6, z7, z8, z10, z11, z12, z13, z14, z15]
      rfl

/-- Witness of C26: under a loader whose file `P2PBallJointMomentArmTest.osim` holds a
muscle that fails both checks and whose other files hold a muscle that passes,
the ninth test case returns `1`, the other fourteen return `0`, and the status of
`main` is `0`. -/
theorem main_status_witness :
    runCase batteryLoad ("P2PBallJointMomentArmTest.osim", "", "", defaultRom, defaultMass) =
      Except.ok 1 ∧
    main batteryLoad = Except.ok 0 :=
  ⟨batteryLoad_inconsistent,
    (main_status batteryLoad [0, 0, 0, 0, 0, 0, 0, 0, 1, 0, 0, 0, 0, 0, 0]
      (List.Forall₂.cons (batteryLoad_consistent "gait23_PatellaInFemur.osim" "hip_flexion_r" "rect_fem_r" _ _ "hip_flexion_r"
        { getName := "rect_fem_r", toMuscle := scenarioMuscle, setDisabled := fun s _ => s }
        (by decide) rfl rfl rfl)
      (List.Forall₂.cons (batteryLoad_consistent "gait23_PatellaInFemur.osim" "knee_angle_r" "rect_fem_r" _ _ "knee_angle_r"
        { getName := "rect_fem_r", toMuscle := scenarioMuscle, setDisabled := fun s _ => s }
        (by decide) rfl rfl rfl)
      (List.Forall₂.cons (batteryLoad_consistent "gait23_PatellaInFemur.osim" "knee_angle_r" "vas_int_r" _ _ "knee_angle_r"
        { getName := "vas_int_r", toMuscle := scenarioMuscle, setDisabled := fun s _ => s }
        (by decide) rfl rfl rfl)
      (List.Forall₂.cons (batteryLoad_consistent "gait2354_patellae.osim" "knee_angle_r" "vas_int_r" _ _ "knee_angle_r"
        { getName := "vas_int_r", toMuscle := scenarioMuscle, setDisabled := fun s _ => s }
        (by decide) rfl rfl rfl)
      (List.Forall₂.cons (batteryLoad_consistent "gait2354_simbody.osim" "knee_angle_r" "vas_int_r" _ _ "knee_angle_r"
        { getName := "vas_int_r", toMuscle := scenarioMuscle, setDisabled := fun s _ => s }
        (by decide) rfl rfl rfl)
      (List.Forall₂.cons (batteryLoad_consistent "wrist_mass.osim" "flexion" "ECU_post-surgery" _ _ "flexion"
        { getName := "ECU_post-surgery", toMuscle := scenarioMuscle, setDisabled := fun s _ => s }
        (by decide) rfl rfl rfl)
      (List.Forall₂.cons (batteryLoad_consistent "wrist_mass.osim" "flexion" "ECU_post-surgery" _ _ "flexion"
        { getName := "ECU_post-surgery", toMuscle := scenarioMuscle, setDisabled := fun s _ => s }
        (by decide) rfl rfl rfl)
      (List.Forall₂.cons (batteryLoad_consistent "wrist_mass.osim" "flexion" "ECU_post-surgery" _ _ "flexion"
        { getName := "ECU_post-surgery", toMuscle := scenarioMuscle, setDisabled := fun s _ => s }
        (by decide) rfl rfl rfl)
      (List.Forall₂.cons batteryLoad_inconsistent
      (List.Forall₂.cons (batteryLoad_consistent "P2PBallCustomJointMomentArmTest.osim" "" "" _ _ "hip_flexion_r"
        { getName := "rect_fem_r", toMuscle := scenarioMuscle, setDisabled := fun s _ => s }
        (by decide) rfl rfl rfl)
      (List.Forall₂.cons (batteryLoad_consistent "MovingPathPointMomentArmTest.osim" "" "" _ _ "hip_flexion_r"
        { getName := "rect_fem_r", toMuscle := scenarioMuscle, setDisabled := fun s _ => s }
        (by decide) rfl rfl rfl)
      (List.Forall₂.cons (batteryLoad_consistent "P2PCustomJointMomentArmTest.osim" "" "" _ _ "hip_flexion_r"
        { getName := "rect_fem_r", toMuscle := scenarioMuscle, setDisabled := fun s _ => s }
        (by decide) rfl rfl rfl)
      (List.Forall₂.cons (batteryLoad_consistent "MovingPointCustomJointMomentArmTest.osim" "" "" _ _ "hip_flexion_r"
        { getName := "rect_fem_r", toMuscle := scenarioMuscle, setDisabled := fun s _ => s }
        (by decide) rfl rfl rfl)
      (List.Forall₂.cons (batteryLoad_consistent "WrapPathCustomJointMomentArmTest.osim" "" "" _ _ "hip_flexion_r"
        { getName := "rect_fem_r", toMuscle := scenarioMuscle, setDisabled := fun s _ => s }
        (by decide) rfl rfl rfl)
      (List.Forall₂.cons (batteryLoad_consistent "PathOnConstrainedBodyMomentArmTest.osim" "" "" _ _ "hip_flexion_r"
        { getName := "rect_fem_r", toMuscle := scenarioMuscle, setDisabled := fun s _ => s }
        (by decide) rfl rfl rfl)
      List.Forall₂.nil)))))))))))))))).2.2.2.2.2.2
      (fun i hi => by
        by_cases h : i < 15
        · interval_cases i <;> first | rfl | exact absurd rfl hi
        · exact List.getD_eq_default _ _ (by simpa using h))⟩

end OpenSim
